import Mathlib

/-!
# Client registry service (`GO_CRUD/vertica/crud1.go`)

A shallow embedding of the five HTTP handlers of `crud1.go` and of the two
lookup helpers they share, followed by the properties proved about them.

Modelling conventions.

* The package variable `clients []Client` is passed in and returned explicitly.
  A Go slice is either nil or a non-nil sequence; the two are kept apart
  because `encoding/json` encodes them differently.
* `http.ResponseWriter` is a record of the header entries set by the handler,
  the status code once written, and the chunks written to the body.
* `*http.Request` is the method, `URL.Path` and the outcome of decoding the
  body with `json.NewDecoder(r.Body).Decode` into a zero `Client`.
* Go `int` is 64 bits wide (`strconv.IntSize = 64`); identifiers are carried as
  `Int` and only ever compared.
-/

namespace GoCrud

/-! ## Constants -/

def baseURL : String := "/clients"
def contentTypeHeader : String := "Content-Type"
def applicationJSON : String := "application/json"
def methodNotAllowedMsg : String := "Method not allowed"
def invalidClientIDMsg : String := "Invalid client ID"
def clientNotFoundMsg : String := "Client not found"

def MethodGet : String := "GET"
def MethodPost : String := "POST"
def MethodPut : String := "PUT"
def MethodDelete : String := "DELETE"

def StatusOK : Nat := 200
def StatusCreated : Nat := 201
def StatusBadRequest : Nat := 400
def StatusNotFound : Nat := 404
def StatusMethodNotAllowed : Nat := 405

/-! ## Data model -/

/-- The record type `Client` with its two fields. -/
structure Client where
  ID : Int
  Name : String
deriving DecidableEq, Repr

/-- A Go value of type `[]Client`: `none` is the nil slice (the zero value the
package variable `clients` holds at process start), `some xs` a non-nil slice
with elements `xs`. -/
abbrev Clients := Option (List Client)

/-- The elements of a slice, in order; a nil slice has none. -/
def records (s : Clients) : List Client := s.getD []

/-- Go `len(s)`. -/
def len (s : Clients) : Nat := (records s).length

/-- Go `s[:hi]`; reslicing nil gives nil. -/
def sliceTo (s : Clients) (hi : Int) : Clients := s.map (fun xs => xs.take hi.toNat)

/-- Go `s[lo:]`; reslicing nil gives nil. -/
def sliceFrom (s : Clients) (lo : Int) : Clients := s.map (fun xs => xs.drop lo.toNat)

/-- Go `append(s, xs...)`: appending nothing returns `s` itself (nil stays nil),
appending at least one element returns a non-nil slice. -/
def append (s : Clients) (xs : List Client) : Clients :=
  match xs with
  | [] => s
  | _ :: _ => some (records s ++ xs)

/-! ## JSON values written by `json.Encoder` -/

/-- A JSON document. -/
inductive Json where
  | null : Json
  | num (n : Int) : Json
  | str (s : String) : Json
  | arr (items : List Json) : Json
  | obj (fields : List (String × Json)) : Json

/-- The encoding of a `Client` under its struct tags `json:"id"`, `json:"name"`. -/
def encodeClient (c : Client) : Json :=
  Json.obj [("id", Json.num c.ID), ("name", Json.str c.Name)]

/-- The encoding of a `[]Client`: a nil slice encodes as `null`, a non-nil
slice as the array of its elements. -/
def encodeClients (s : Clients) : Json :=
  match s with
  | none => Json.null
  | some xs => Json.arr (xs.map encodeClient)

/-! ## Request and response -/

/-- One `Write` to the response body. -/
inductive Chunk where
  /-- Plain text, as written by `http.Error` (the message and a newline). -/
  | text (s : String) : Chunk
  /-- The text `json.Encoder.Encode` writes for a value (the document and a newline). -/
  | json (v : Json) : Chunk

/-- The state of an `http.ResponseWriter`. -/
structure ResponseWriter where
  /-- Header entries set through `w.Header()`. -/
  header : List (String × String)
  /-- The status code, once `WriteHeader` has run (explicitly or by the first `Write`). -/
  code : Option Nat
  /-- The chunks written to the body, in order. -/
  body : List Chunk

/-- A writer nothing has been written to, as `httptest.NewRecorder()` returns. -/
def newRecorder : ResponseWriter := { header := [], code := none, body := [] }

/-- Go `w.Header().Set(key, value)`; the header is frozen once the status is written. -/
def ResponseWriter.setHeader (w : ResponseWriter) (key value : String) : ResponseWriter :=
  match w.code with
  | some _ => w
  | none => { w with header := (w.header.filter (fun kv => kv.1 != key)) ++ [(key, value)] }

/-- Go `w.WriteHeader(code)`; a second call is ignored. -/
def ResponseWriter.writeHeader (w : ResponseWriter) (code : Nat) : ResponseWriter :=
  match w.code with
  | some _ => w
  | none => { w with code := some code }

/-- Go `w.Write(...)`: writes status 200 first when no status was written. -/
def ResponseWriter.write (w : ResponseWriter) (c : Chunk) : ResponseWriter :=
  let w1 := w.writeHeader StatusOK
  { w1 with body := w1.body ++ [c] }

/-- Go `http.Error(w, msg, code)`. -/
def httpError (w : ResponseWriter) (msg : String) (code : Nat) : ResponseWriter :=
  let w1 := w.setHeader "Content-Type" "text/plain; charset=utf-8"
  let w2 := w1.setHeader "X-Content-Type-Options" "nosniff"
  let w3 := w2.writeHeader code
  w3.write (Chunk.text (msg ++ "\n"))

/-- Go `json.NewEncoder(w).Encode(v)` for an already encoded value. -/
def jsonEncode (w : ResponseWriter) (v : Json) : ResponseWriter :=
  w.write (Chunk.json v)

/-- The status line the peer receives: 200 when the handler never wrote one. -/
def ResponseWriter.status (w : ResponseWriter) : Nat := w.code.getD StatusOK

/-- The parts of `*http.Request` the handlers read. `Body` is the outcome of
`json.NewDecoder(r.Body).Decode(&client)` on a zero `Client`: `none` when
`Decode` returns an error (malformed, truncated or empty input, a value of the
wrong type), `some c` when it returns nil and leaves `c` in the target. -/
structure Request where
  Method : String
  Path : String
  Body : Option Client

/-- What a handler leaves behind: the response and the package variable `clients`. -/
structure Outcome where
  resp : ResponseWriter
  clients : Clients

/-! ## Library routines: `strings.TrimPrefix` and `strconv.Atoi` -/

/-- Go `strings.TrimPrefix(s, pre)`: `s` without the leading `pre`, or `s`
itself when it does not start with `pre`. -/
def trimPrefix (s pre : String) : String :=
  if pre.data.isPrefixOf s.data then String.mk (s.data.drop pre.data.length) else s

/-- Width of Go `int` (`strconv.IntSize`). -/
def intSize : Nat := 64

/-- The value of a decimal digit, `none` for any other character. -/
def digitVal (ch : Char) : Option Nat :=
  if 48 ≤ ch.toNat ∧ ch.toNat ≤ 57 then some (ch.toNat - 48) else none

/-- The digit loop of the fast path of `strconv.Atoi`: no overflow check,
a syntax error at the first character that is not a digit. -/
def atoiFastLoop : List Char → Int → Option Int
  | [], n => some n
  | ch :: rest, n =>
    match digitVal ch with
    | none => none
    | some d => atoiFastLoop rest (n * 10 + d)

/-- The digit loop of `strconv.ParseUint(s, 10, 64)`: a syntax error at a
character that is not a digit, a range error when the value leaves `uint64`. -/
def parseUintLoop : List Char → Nat → Option Nat
  | [], n => some n
  | ch :: rest, n =>
    match digitVal ch with
    | none => none
    | some d =>
      if n ≥ (2 ^ 64 - 1) / 10 + 1 then none
      else if n * 10 + d > 2 ^ 64 - 1 then none
      else parseUintLoop rest (n * 10 + d)

/-- Go `strconv.ParseUint(s, 10, 64)`, `none` on any error. -/
def parseUint (s : List Char) : Option Nat :=
  match s with
  | [] => none
  | _ :: _ => parseUintLoop s 0

/-- Go `strconv.ParseInt(s, 10, 0)`, `none` on any error: an optional sign, then
`ParseUint`, then the range check against `1 << (intSize - 1)`. -/
def parseInt (s : List Char) : Option Int :=
  match s with
  | [] => none
  | ch :: rest =>
    let neg := ch == '-'
    let digits := if ch == '+' ∨ ch == '-' then rest else s
    match parseUint digits with
    | none => none
    | some un =>
      let cutoff : Nat := 2 ^ (intSize - 1)
      if !neg ∧ un ≥ cutoff then none
      else if neg ∧ un > cutoff then none
      else some (if neg then -(un : Int) else (un : Int))

/-- Go `strconv.Atoi(s)`, `none` when it returns an error. Strings of 1 to 18
bytes take the fast path, all others go through `ParseInt`. (The length is
counted in characters; a string with a character outside ASCII is rejected on
either path.) -/
def atoi (s : String) : Option Int :=
  let sLen := s.data.length
  if 0 < sLen ∧ sLen < 19 then
    match s.data with
    | [] => none
    | ch :: rest =>
      let signed := ch == '-' ∨ ch == '+'
      let digits := if signed then rest else s.data
      if signed ∧ digits.length < 1 then none
      else
        match atoiFastLoop digits 0 with
        | none => none
        | some n => some (if ch == '-' then -n else n)
  else parseInt s.data

/-- The id named by a request path: `strconv.Atoi(strings.TrimPrefix(path, baseURL+"/"))`. -/
def pathID (path : String) : Option Int :=
  atoi (trimPrefix path (baseURL ++ "/"))

/-- The path `/clients/<i>` with `i` in canonical decimal. -/
def clientPath (i : Int) : String := baseURL ++ "/" ++ toString i

/-! ## Lookup helpers -/

/-- The loop of `findClientByID`. -/
def findClientByIDLoop (id : Int) : List Client → Client × Bool
  | [] => ({ ID := 0, Name := "" }, false)
  | client :: rest => if client.ID = id then (client, true) else findClientByIDLoop id rest

/-- Go `findClientByID(id)`: the first record with that id and `true`, or the
zero `Client` and `false`. -/
def findClientByID (clients : Clients) (id : Int) : Client × Bool :=
  findClientByIDLoop id (records clients)

/-- The loop of `findClientIndexByID`, `i` being the index of the head. -/
def findClientIndexByIDLoop (id : Int) : List Client → Nat → Int × Bool
  | [], _ => (-1, false)
  | client :: rest, i =>
    if client.ID = id then ((i : Int), true) else findClientIndexByIDLoop id rest (i + 1)

/-- Go `findClientIndexByID(id)`: the index of the first record with that id
and `true`, or `-1` and `false`. -/
def findClientIndexByID (clients : Clients) (id : Int) : Int × Bool :=
  findClientIndexByIDLoop id (records clients) 0

/-! ## Handlers -/

/-- Go `handleGetClients`. -/
def handleGetClients (clients : Clients) (w : ResponseWriter) (r : Request) : Outcome :=
  if r.Method ≠ MethodGet then
    { resp := httpError w methodNotAllowedMsg StatusMethodNotAllowed, clients := clients }
  else
    let w := w.setHeader contentTypeHeader applicationJSON
    { resp := jsonEncode w (encodeClients clients), clients := clients }

/-- Go `handleGetSingleClient`. -/
def handleGetSingleClient (clients : Clients) (w : ResponseWriter) (r : Request) : Outcome :=
  if r.Method ≠ MethodGet then
    { resp := httpError w methodNotAllowedMsg StatusMethodNotAllowed, clients := clients }
  else
    let idStr := trimPrefix r.Path (baseURL ++ "/")
    match atoi idStr with
    | none => { resp := httpError w invalidClientIDMsg StatusBadRequest, clients := clients }
    | some id =>
      if id ≤ 0 then
        { resp := httpError w invalidClientIDMsg StatusBadRequest, clients := clients }
      else
        let (client, found) := findClientByID clients id
        if !found then
          { resp := httpError w clientNotFoundMsg StatusNotFound, clients := clients }
        else
          let w := w.setHeader contentTypeHeader applicationJSON
          { resp := jsonEncode w (encodeClient client), clients := clients }

/-- Go `handleCreateClient`. -/
def handleCreateClient (clients : Clients) (w : ResponseWriter) (r : Request) : Outcome :=
  if r.Method ≠ MethodPost then
    { resp := httpError w methodNotAllowedMsg StatusMethodNotAllowed, clients := clients }
  else
    match r.Body with
    | none => { resp := httpError w "Bad request" StatusBadRequest, clients := clients }
    | some client =>
      let clients := append clients [client]
      let w := w.writeHeader StatusCreated
      { resp := jsonEncode w (encodeClient client), clients := clients }

/-- Go `handleUpdateClient`. `findClientByID` returns the record by value, so
the assignment to `client.Name` changes the local copy that is then encoded;
the package variable `clients` is not written. -/
def handleUpdateClient (clients : Clients) (w : ResponseWriter) (r : Request) : Outcome :=
  if r.Method ≠ MethodPut then
    { resp := httpError w methodNotAllowedMsg StatusMethodNotAllowed, clients := clients }
  else
    let idStr := trimPrefix r.Path (baseURL ++ "/")
    match atoi idStr with
    | none => { resp := httpError w invalidClientIDMsg StatusBadRequest, clients := clients }
    | some id =>
      if id ≤ 0 then
        { resp := httpError w invalidClientIDMsg StatusBadRequest, clients := clients }
      else
        match r.Body with
        | none => { resp := httpError w "Bad request" StatusBadRequest, clients := clients }
        | some updatedClient =>
          let (client, found) := findClientByID clients id
          if !found then
            { resp := httpError w clientNotFoundMsg StatusNotFound, clients := clients }
          else
            let client := { client with Name := updatedClient.Name }
            let w := w.setHeader contentTypeHeader applicationJSON
            { resp := jsonEncode w (encodeClient client), clients := clients }

/-- Go `handleDeleteClient`. -/
def handleDeleteClient (clients : Clients) (w : ResponseWriter) (r : Request) : Outcome :=
  if r.Method ≠ MethodDelete then
    { resp := httpError w methodNotAllowedMsg StatusMethodNotAllowed, clients := clients }
  else
    let idStr := trimPrefix r.Path (baseURL ++ "/")
    match atoi idStr with
    | none => { resp := httpError w invalidClientIDMsg StatusBadRequest, clients := clients }
    | some id =>
      if id ≤ 0 then
        { resp := httpError w invalidClientIDMsg StatusBadRequest, clients := clients }
      else
        let (index, found) := findClientIndexByID clients id
        if !found then
          { resp := httpError w clientNotFoundMsg StatusNotFound, clients := clients }
        else
          let clients := append (sliceTo clients index) (records (sliceFrom clients (index + 1)))
          { resp := w.writeHeader StatusOK, clients := clients }

/-- The seed collection of the test file (`initialClients`, copied by `setup`). -/
def initialClients : Clients :=
  some [{ ID := 1, Name := "Client 1" }, { ID := 2, Name := "Client 2" }, { ID := 3, Name := "Client 3" }]

/-! ## Sequences of requests -/

/-- A request handed to one of the two handlers that are meant to change the
collection by adding or renaming: `handleCreateClient` or `handleUpdateClient`. -/
inductive Op where
  | create (r : Request) : Op
  | update (r : Request) : Op

/-- Serving one request on the current collection, with a writer of its own. -/
def serve (clients : Clients) : Op → Outcome
  | Op.create r => handleCreateClient clients newRecorder r
  | Op.update r => handleUpdateClient clients newRecorder r

/-- The collection after the requests have been served one after the other. -/
def serveAll : Clients → List Op → Clients
  | clients, [] => clients
  | clients, op :: ops => serveAll (serve clients op).clients ops

/-- The records of the Creates that were answered 201, in the order in which
the requests were made. -/
def createdRecords : Clients → List Op → List Client
  | _, [] => []
  | clients, Op.create r :: ops =>
    (if (serve clients (Op.create r)).resp.status = StatusCreated then r.Body.toList else []) ++
      createdRecords (serve clients (Op.create r)).clients ops
  | clients, Op.update r :: ops => createdRecords (serve clients (Op.update r)).clients ops

/-! ## Decimal text -/

/-- `IsDecimal ds n`: `ds` is a non-empty string of decimal digits whose value is `n`. -/
inductive IsDecimal : List Char → Nat → Prop where
  | digit (d : Nat) (h : d < 10) : IsDecimal [Nat.digitChar d] d
  | snoc (ds : List Char) (n d : Nat) (h : d < 10) (hds : IsDecimal ds n) :
      IsDecimal (ds ++ [Nat.digitChar d]) (n * 10 + d)

end GoCrud

namespace GoCrud

/-! # Lemmas -/

/-! ### Decimal text and `strconv.Atoi` -/

theorem digitVal_digitChar (d : Nat) (h : d < 10) : digitVal (Nat.digitChar d) = some d := by
  interval_cases d <;> rfl

theorem digitChar_not_sign (d : Nat) (h : d < 10) :
    (Nat.digitChar d == '-') = false ∧ (Nat.digitChar d == '+') = false := by
  interval_cases d <;> exact ⟨rfl, rfl⟩

theorem toDigitsCore_isDecimal (fuel : Nat) :
    ∀ n : Nat, n < fuel →
      ∃ ds, IsDecimal ds n ∧ ∀ acc, Nat.toDigitsCore 10 fuel n acc = ds ++ acc := by
  induction fuel with
  | zero => intro n hn; omega
  | succ f ih =>
    intro n hn
    by_cases h0 : n / 10 = 0
    · refine ⟨[Nat.digitChar n], IsDecimal.digit n (by omega), ?_⟩
      intro acc
      have hmod : n % 10 = n := by omega
      simp [Nat.toDigitsCore, h0, hmod]
    · obtain ⟨ds, hds, hacc⟩ := ih (n / 10) (by omega)
      refine ⟨ds ++ [Nat.digitChar (n % 10)], ?_, ?_⟩
      · have := IsDecimal.snoc ds (n / 10) (n % 10) (Nat.mod_lt _ (by decide)) hds
        have hn' : n / 10 * 10 + n % 10 = n := by omega
        rwa [hn'] at this
      · intro acc
        simp [Nat.toDigitsCore, h0, hacc]

theorem toDigits_isDecimal (n : Nat) : IsDecimal (Nat.toDigits 10 n) n := by
  obtain ⟨ds, hds, hacc⟩ := toDigitsCore_isDecimal (n + 1) n (Nat.lt_succ_self n)
  have : Nat.toDigits 10 n = ds := by simp [Nat.toDigits, hacc]
  rw [this]; exact hds

theorem atoiFastLoop_append (xs ys : List Char) :
    ∀ v, atoiFastLoop (xs ++ ys) v = (atoiFastLoop xs v).bind (atoiFastLoop ys) := by
  induction xs with
  | nil => intro v; simp [atoiFastLoop]
  | cons c cs ih =>
    intro v
    simp only [List.cons_append, atoiFastLoop]
    cases digitVal c with
    | none => simp
    | some d => simp [ih]

theorem parseUintLoop_append (xs ys : List Char) :
    ∀ v, parseUintLoop (xs ++ ys) v = (parseUintLoop xs v).bind (parseUintLoop ys) := by
  induction xs with
  | nil => intro v; simp [parseUintLoop]
  | cons c cs ih =>
    intro v
    simp only [List.cons_append, parseUintLoop]
    cases digitVal c with
    | none => simp
    | some d =>
      simp only
      split
      · simp
      · split
        · simp
        · simp [ih]

theorem atoiFastLoop_isDecimal {ds : List Char} {n : Nat} (h : IsDecimal ds n) :
    atoiFastLoop ds 0 = some (n : Int) := by
  induction h with
  | digit d hd => simp [atoiFastLoop, digitVal_digitChar d hd]
  | snoc ds n d hd _ ih =>
    rw [atoiFastLoop_append, ih]
    simp [atoiFastLoop, digitVal_digitChar d hd]

theorem parseUintLoop_isDecimal {ds : List Char} {n : Nat} (h : IsDecimal ds n) :
    n ≤ 2 ^ 64 - 1 → parseUintLoop ds 0 = some n := by
  induction h with
  | digit d hd =>
    intro _
    have h1 : ¬ (2 ^ 64 - 1 < d) := by norm_num; omega
    simp [parseUintLoop, digitVal_digitChar d hd]
    omega
  | snoc ds n d hd _ ih =>
    intro hle
    have hn : n ≤ 2 ^ 64 - 1 := by omega
    rw [parseUintLoop_append, ih hn]
    have h1 : ¬ (n ≥ (2 ^ 64 - 1) / 10 + 1) := by norm_num at hle ⊢; omega
    have h2 : ¬ (n * 10 + d > 2 ^ 64 - 1) := by omega
    simp only [parseUintLoop, digitVal_digitChar d hd, Option.some_bind, if_neg h1, if_neg h2]

theorem isDecimal_head {ds : List Char} {n : Nat} (h : IsDecimal ds n) :
    ∃ d rest, d < 10 ∧ ds = Nat.digitChar d :: rest := by
  induction h with
  | digit d hd => exact ⟨d, [], hd, rfl⟩
  | snoc ds n d hd _ ih =>
    obtain ⟨d0, rest, hd0, hrest⟩ := ih
    exact ⟨d0, rest ++ [Nat.digitChar d], hd0, by simp [hrest]⟩

theorem atoi_of_isDecimal (s : String) (n : Nat) (h : IsDecimal s.data n) (hn : n < 2 ^ 63) :
    atoi s = some (n : Int) := by
  obtain ⟨d, rest, hd, hs⟩ := isDecimal_head h
  obtain ⟨hminus, hplus⟩ := digitChar_not_sign d hd
  have hfast := atoiFastLoop_isDecimal h
  have hslow := parseUintLoop_isDecimal h (by omega)
  unfold atoi
  simp only
  split
  · rw [hs] at hfast ⊢
    simp [hminus, hplus, hfast]
  · rw [hs] at hslow ⊢
    have hcut : ¬ (2 ^ 63 ≤ n) := by omega
    simp [parseInt, parseUint, hminus, hplus, hslow, intSize]
    omega

theorem toString_data (i : Nat) : (toString i).data = Nat.toDigits 10 i := rfl

theorem atoi_toString (i : Nat) (hi : i < 2 ^ 63) : atoi (toString i) = some (i : Int) :=
  atoi_of_isDecimal (toString i) i (by rw [toString_data]; exact toDigits_isDecimal i) hi

theorem trimPrefix_append (pre s : String) : trimPrefix (pre ++ s) pre = s := by
  unfold trimPrefix
  have h1 : pre.data.isPrefixOf (pre ++ s).data = true := by
    rw [String.data_append, List.isPrefixOf_iff_prefix]
    exact List.prefix_append _ _
  rw [if_pos h1, String.data_append, List.drop_left]

theorem pathID_clientPath (i : Int) (h0 : 0 ≤ i) (hi : i < 2 ^ 63) :
    pathID (clientPath i) = some i := by
  obtain ⟨n, rfl⟩ := Int.eq_ofNat_of_zero_le h0
  unfold pathID clientPath
  rw [trimPrefix_append]
  exact atoi_toString n (by exact_mod_cast hi)

/-! ### The response a fresh writer ends up with -/

theorem httpError_newRecorder (msg : String) (code : Nat) :
    httpError newRecorder msg code =
      { header := [("Content-Type", "text/plain; charset=utf-8"),
                   ("X-Content-Type-Options", "nosniff")],
        code := some code,
        body := [Chunk.text (msg ++ "\n")] } := by
  simp [httpError, newRecorder, ResponseWriter.setHeader, ResponseWriter.writeHeader,
    ResponseWriter.write]

theorem jsonEncode_newRecorder (v : Json) :
    jsonEncode (newRecorder.setHeader contentTypeHeader applicationJSON) v =
      { header := [("Content-Type", "application/json")], code := some 200,
        body := [Chunk.json v] } := by
  simp [jsonEncode, newRecorder, ResponseWriter.setHeader, ResponseWriter.writeHeader,
    ResponseWriter.write, contentTypeHeader, applicationJSON, StatusOK]

/-! ### The lookup loops -/

theorem findClientByIDLoop_split (id : Int) (pre post : List Client) (c : Client)
    (hc : c.ID = id) (hpre : ∀ x ∈ pre, x.ID ≠ id) :
    findClientByIDLoop id (pre ++ c :: post) = (c, true) := by
  induction pre with
  | nil => simp [findClientByIDLoop, hc]
  | cons x xs ih =>
    have hx : x.ID ≠ id := hpre x (List.mem_cons_self _ _)
    rw [List.cons_append, findClientByIDLoop, if_neg hx]
    exact ih (fun y hy => hpre y (List.mem_cons_of_mem _ hy))

theorem findClientByIDLoop_absent (id : Int) (l : List Client) (h : ∀ x ∈ l, x.ID ≠ id) :
    findClientByIDLoop id l = ({ ID := 0, Name := "" }, false) := by
  induction l with
  | nil => rfl
  | cons x xs ih =>
    have hx : x.ID ≠ id := h x (List.mem_cons_self _ _)
    simp only [findClientByIDLoop, if_neg hx]
    exact ih (fun y hy => h y (List.mem_cons_of_mem _ hy))

theorem findClientIndexByIDLoop_split (id : Int) (pre post : List Client) (c : Client)
    (hc : c.ID = id) (hpre : ∀ x ∈ pre, x.ID ≠ id) :
    ∀ k : Nat, findClientIndexByIDLoop id (pre ++ c :: post) k = (((k + pre.length : Nat) : Int), true) := by
  induction pre with
  | nil => intro k; simp [findClientIndexByIDLoop, hc]
  | cons x xs ih =>
    intro k
    have hx : x.ID ≠ id := hpre x (List.mem_cons_self _ _)
    rw [List.cons_append, findClientIndexByIDLoop, if_neg hx]
    rw [ih (fun y hy => hpre y (List.mem_cons_of_mem _ hy)) (k + 1)]
    simp only [List.length_cons]
    congr 2
    omega

theorem findClientIndexByIDLoop_absent (id : Int) (l : List Client) (h : ∀ x ∈ l, x.ID ≠ id) :
    ∀ k : Nat, findClientIndexByIDLoop id l k = (-1, false) := by
  induction l with
  | nil => intro k; rfl
  | cons x xs ih =>
    intro k
    have hx : x.ID ≠ id := h x (List.mem_cons_self _ _)
    simp only [findClientIndexByIDLoop, if_neg hx]
    exact ih (fun y hy => h y (List.mem_cons_of_mem _ hy)) (k + 1)

/-- A list holding a record with the id splits at the first such record. -/
theorem exists_first_split (id : Int) (l : List Client) (h : ∃ x ∈ l, x.ID = id) :
    ∃ pre c post, l = pre ++ c :: post ∧ c.ID = id ∧ ∀ x ∈ pre, x.ID ≠ id := by
  induction l with
  | nil => obtain ⟨x, hx, _⟩ := h; cases hx
  | cons y ys ih =>
    by_cases hy : y.ID = id
    · exact ⟨[], y, ys, rfl, hy, fun x hx => by cases hx⟩
    · obtain ⟨x, hx, hxid⟩ := h
      have hx' : x ∈ ys := by
        rcases List.mem_cons.mp hx with rfl | hmem
        · exact absurd hxid hy
        · exact hmem
      obtain ⟨pre, c, post, hl, hc, hpre⟩ := ih ⟨x, hx', hxid⟩
      refine ⟨y :: pre, c, post, by simp [hl], hc, ?_⟩
      intro z hz
      rcases List.mem_cons.mp hz with rfl | hmem
      · exact hy
      · exact hpre z hmem

/-! ### The handlers on a request that passes the method and id checks -/

theorem handleGetSingleClient_eq (clients : Clients) (w : ResponseWriter) (r : Request)
    (id : Int) (hm : r.Method = MethodGet) (hp : pathID r.Path = some id) (hpos : 0 < id) :
    handleGetSingleClient clients w r =
      if (findClientByID clients id).2 = true then
        { resp := jsonEncode (w.setHeader contentTypeHeader applicationJSON)
            (encodeClient (findClientByID clients id).1), clients := clients }
      else { resp := httpError w clientNotFoundMsg StatusNotFound, clients := clients } := by
  unfold pathID at hp
  unfold handleGetSingleClient
  simp only [hm, hp, not_le.mpr hpos, ne_eq, not_true_eq_false, if_false]
  cases h : (findClientByID clients id).2 <;> simp [h]

theorem handleUpdateClient_eq (clients : Clients) (w : ResponseWriter) (r : Request)
    (id : Int) (u : Client) (hm : r.Method = MethodPut) (hp : pathID r.Path = some id)
    (hpos : 0 < id) (hb : r.Body = some u) :
    handleUpdateClient clients w r =
      if (findClientByID clients id).2 = true then
        { resp := jsonEncode (w.setHeader contentTypeHeader applicationJSON)
            (encodeClient { (findClientByID clients id).1 with Name := u.Name }),
          clients := clients }
      else { resp := httpError w clientNotFoundMsg StatusNotFound, clients := clients } := by
  unfold pathID at hp
  unfold handleUpdateClient
  simp only [hm, hp, hb, not_le.mpr hpos, ne_eq, not_true_eq_false, if_false]
  cases h : (findClientByID clients id).2 <;> simp [h]

theorem handleUpdateClient_badBody (clients : Clients) (w : ResponseWriter) (r : Request)
    (id : Int) (hm : r.Method = MethodPut) (hp : pathID r.Path = some id)
    (hpos : 0 < id) (hb : r.Body = none) :
    handleUpdateClient clients w r =
      { resp := httpError w "Bad request" StatusBadRequest, clients := clients } := by
  unfold pathID at hp
  unfold handleUpdateClient
  simp only [hm, hp, hb, not_le.mpr hpos, ne_eq, not_true_eq_false, if_false]

theorem handleDeleteClient_eq (clients : Clients) (w : ResponseWriter) (r : Request)
    (id : Int) (hm : r.Method = MethodDelete) (hp : pathID r.Path = some id) (hpos : 0 < id) :
    handleDeleteClient clients w r =
      if (findClientIndexByID clients id).2 = true then
        { resp := w.writeHeader StatusOK,
          clients := append (sliceTo clients (findClientIndexByID clients id).1)
            (records (sliceFrom clients ((findClientIndexByID clients id).1 + 1))) }
      else { resp := httpError w clientNotFoundMsg StatusNotFound, clients := clients } := by
  unfold pathID at hp
  unfold handleDeleteClient
  simp only [hm, hp, not_le.mpr hpos, ne_eq, not_true_eq_false, if_false]
  cases h : (findClientIndexByID clients id).2 <;> simp [h]

theorem handler_invalid_id (clients : Clients) (w : ResponseWriter) (r : Request)
    (hid : pathID r.Path = none ∨ ∃ n, pathID r.Path = some n ∧ n ≤ 0) :
    (r.Method = MethodGet → handleGetSingleClient clients w r =
      { resp := httpError w invalidClientIDMsg StatusBadRequest, clients := clients }) ∧
    (r.Method = MethodPut → handleUpdateClient clients w r =
      { resp := httpError w invalidClientIDMsg StatusBadRequest, clients := clients }) ∧
    (r.Method = MethodDelete → handleDeleteClient clients w r =
      { resp := httpError w invalidClientIDMsg StatusBadRequest, clients := clients }) := by
  unfold pathID at hid
  refine ⟨?_, ?_, ?_⟩ <;> intro hm
  · unfold handleGetSingleClient
    rcases hid with h | ⟨n, h, hn⟩
    · simp [hm, h]
    · simp [hm, h, hn]
  · unfold handleUpdateClient
    rcases hid with h | ⟨n, h, hn⟩
    · simp [hm, h]
    · simp [hm, h, hn]
  · unfold handleDeleteClient
    rcases hid with h | ⟨n, h, hn⟩
    · simp [hm, h]
    · simp [hm, h, hn]

/-- Removing the element at the split point, written with the slice operations
of `handleDeleteClient`. -/
theorem delete_slices (clients : Clients) (pre post : List Client) (c : Client)
    (h : records clients = pre ++ c :: post) :
    append (sliceTo clients ((pre.length : Nat) : Int))
      (records (sliceFrom clients (((pre.length : Nat) : Int) + 1))) = some (pre ++ post) := by
  cases clients with
  | none => simp [records] at h
  | some xs =>
    have hxs : xs = pre ++ c :: post := by simpa [records] using h
    subst hxs
    have h1 : (((pre.length : Nat) : Int) + 1).toNat = pre.length + 1 := by omega
    have hdrop : List.drop (pre.length + 1) (pre ++ c :: post) = post := by
      rw [List.drop_append]; rfl
    cases post with
    | nil => simp [sliceTo, sliceFrom, append, records, h1, hdrop]
    | cons p ps => simp [sliceTo, sliceFrom, append, records, h1, hdrop]

/-! ### The handlers when the id is present or absent -/

theorem findClientByID_present (clients : Clients) (i : Int) (pre post : List Client)
    (c : Client) (hl : records clients = pre ++ c :: post) (hc : c.ID = i)
    (hpre : ∀ x ∈ pre, x.ID ≠ i) : findClientByID clients i = (c, true) := by
  unfold findClientByID
  rw [hl]
  exact findClientByIDLoop_split i pre post c hc hpre

theorem findClientByID_absent (clients : Clients) (i : Int)
    (habs : ∀ x ∈ records clients, x.ID ≠ i) :
    findClientByID clients i = ({ ID := 0, Name := "" }, false) :=
  findClientByIDLoop_absent i (records clients) habs

theorem handleGetSingleClient_present (clients : Clients) (w : ResponseWriter) (r : Request)
    (i : Int) (pre post : List Client) (c : Client)
    (hm : r.Method = MethodGet) (hp : pathID r.Path = some i) (hpos : 0 < i)
    (hl : records clients = pre ++ c :: post) (hc : c.ID = i) (hpre : ∀ x ∈ pre, x.ID ≠ i) :
    handleGetSingleClient clients w r =
      { resp := jsonEncode (w.setHeader contentTypeHeader applicationJSON) (encodeClient c),
        clients := clients } := by
  rw [handleGetSingleClient_eq clients w r i hm hp hpos,
    findClientByID_present clients i pre post c hl hc hpre, if_pos rfl]

theorem handleGetSingleClient_absent (clients : Clients) (w : ResponseWriter) (r : Request)
    (i : Int) (hm : r.Method = MethodGet) (hp : pathID r.Path = some i) (hpos : 0 < i)
    (habs : ∀ x ∈ records clients, x.ID ≠ i) :
    handleGetSingleClient clients w r =
      { resp := httpError w clientNotFoundMsg StatusNotFound, clients := clients } := by
  rw [handleGetSingleClient_eq clients w r i hm hp hpos, findClientByID_absent clients i habs,
    if_neg (by simp)]

theorem handleUpdateClient_present (clients : Clients) (w : ResponseWriter) (r : Request)
    (i : Int) (u : Client) (pre post : List Client) (c : Client)
    (hm : r.Method = MethodPut) (hp : pathID r.Path = some i) (hpos : 0 < i)
    (hb : r.Body = some u)
    (hl : records clients = pre ++ c :: post) (hc : c.ID = i) (hpre : ∀ x ∈ pre, x.ID ≠ i) :
    handleUpdateClient clients w r =
      { resp := jsonEncode (w.setHeader contentTypeHeader applicationJSON)
          (encodeClient { c with Name := u.Name }),
        clients := clients } := by
  rw [handleUpdateClient_eq clients w r i u hm hp hpos hb,
    findClientByID_present clients i pre post c hl hc hpre, if_pos rfl]

theorem handleUpdateClient_absent (clients : Clients) (w : ResponseWriter) (r : Request)
    (i : Int) (u : Client) (hm : r.Method = MethodPut) (hp : pathID r.Path = some i)
    (hpos : 0 < i) (hb : r.Body = some u) (habs : ∀ x ∈ records clients, x.ID ≠ i) :
    handleUpdateClient clients w r =
      { resp := httpError w clientNotFoundMsg StatusNotFound, clients := clients } := by
  rw [handleUpdateClient_eq clients w r i u hm hp hpos hb, findClientByID_absent clients i habs,
    if_neg (by simp)]

theorem handleDeleteClient_present (clients : Clients) (w : ResponseWriter) (r : Request)
    (i : Int) (pre post : List Client) (c : Client)
    (hm : r.Method = MethodDelete) (hp : pathID r.Path = some i) (hpos : 0 < i)
    (hl : records clients = pre ++ c :: post) (hc : c.ID = i) (hpre : ∀ x ∈ pre, x.ID ≠ i) :
    handleDeleteClient clients w r =
      { resp := w.writeHeader StatusOK, clients := some (pre ++ post) } := by
  have hidx : findClientIndexByID clients i = (((pre.length : Nat) : Int), true) := by
    unfold findClientIndexByID
    rw [hl, findClientIndexByIDLoop_split i pre post c hc hpre 0]
    simp
  rw [handleDeleteClient_eq clients w r i hm hp hpos, hidx, if_pos rfl]
  simp [delete_slices clients pre post c hl]

theorem handleDeleteClient_absent (clients : Clients) (w : ResponseWriter) (r : Request)
    (i : Int) (hm : r.Method = MethodDelete) (hp : pathID r.Path = some i) (hpos : 0 < i)
    (habs : ∀ x ∈ records clients, x.ID ≠ i) :
    handleDeleteClient clients w r =
      { resp := httpError w clientNotFoundMsg StatusNotFound, clients := clients } := by
  have hidx : findClientIndexByID clients i = (-1, false) :=
    findClientIndexByIDLoop_absent i (records clients) habs 0
  rw [handleDeleteClient_eq clients w r i hm hp hpos, hidx, if_neg (by simp)]

theorem handleDeleteClient_wrong_method (clients : Clients) (w : ResponseWriter) (r : Request)
    (hm : r.Method ≠ MethodDelete) :
    handleDeleteClient clients w r =
      { resp := httpError w methodNotAllowedMsg StatusMethodNotAllowed, clients := clients } := by
  unfold handleDeleteClient
  rw [if_pos hm]

/-! ### Negative decimal text -/

theorem toString_negSucc (m : Nat) :
    (toString (Int.negSucc m)).data = '-' :: Nat.toDigits 10 (m + 1) := rfl

theorem atoi_neg_of_isDecimal (s : String) (ds : List Char) (n : Nat)
    (hs : s.data = '-' :: ds) (h : IsDecimal ds n) (hn : n ≤ 2 ^ 63) :
    atoi s = some (-(n : Int)) := by
  obtain ⟨d, rest, hd, hds⟩ := isDecimal_head h
  have hfast := atoiFastLoop_isDecimal h
  have hslow := parseUintLoop_isDecimal h (by omega)
  unfold atoi
  simp only [hs]
  split
  · rw [hds] at hfast ⊢
    simp [hfast]
  · rw [hds] at hslow ⊢
    simp [parseInt, parseUint, hslow, intSize]
    omega

theorem pathID_clientPath_neg (i : Int) (hneg : i < 0) (hmin : -2 ^ 63 ≤ i) :
    pathID (clientPath i) = some i := by
  obtain ⟨m, rfl⟩ := Int.eq_negSucc_of_lt_zero hneg
  unfold pathID clientPath
  rw [trimPrefix_append]
  have h := atoi_neg_of_isDecimal (toString (Int.negSucc m)) (Nat.toDigits 10 (m + 1)) (m + 1)
    (toString_negSucc m) (toDigits_isDecimal (m + 1))
    (by have := Int.negSucc_eq m; omega)
  rw [h, Int.negSucc_eq]
  simp

/-! # Properties of the handlers -/

/-! ## Update -/

/-- C1 (code defect): on the seed collection of the tests, `PUT /clients/1` with a
body that decodes to `{1, "Updated Client 1"}` is answered 200 with the renamed
record, yet the collection is left exactly as it was: `findClientByID 1` and a
following `GET /clients/1` still give `{1, "Client 1"}`. -/
theorem C1_handleUpdateClient_keeps_old_name :
    (let out := handleUpdateClient initialClients newRecorder
      { Method := "PUT", Path := "/clients/1",
        Body := some { ID := 1, Name := "Updated Client 1" } }
    out.resp.status = 200 ∧
    out.resp.body = [Chunk.json (encodeClient { ID := 1, Name := "Updated Client 1" })] ∧
    out.clients = initialClients ∧
    findClientByID out.clients 1 = ({ ID := 1, Name := "Client 1" }, true) ∧
    (handleGetSingleClient out.clients newRecorder
      { Method := "GET", Path := "/clients/1", Body := none }).resp.body =
        [Chunk.json (encodeClient { ID := 1, Name := "Client 1" })]) :=
  ⟨rfl, rfl, rfl, rfl, rfl⟩

/-! ## Delete -/

/-- C2: a `DELETE` whose path names a positive id `i`. When `i` occurs in the
collection the answer is 200 with an empty body and the collection afterwards is
the one before without the first record whose id is `i`: it splits as
`pre ++ c :: post` with `c` that record and no record of `pre` having id `i`, and
becomes `pre ++ post`, one shorter. When `i` does not occur the answer is 404
`Client not found` and the collection is unchanged. -/
theorem C2_handleDeleteClient_removes_first (clients : Clients) (path : String) (i : Int)
    (body : Option Client) (hpath : pathID path = some i) (hpos : 0 < i) :
    (let out := handleDeleteClient clients newRecorder
      { Method := MethodDelete, Path := path, Body := body }
    ((∃ x ∈ records clients, x.ID = i) →
      out.resp.status = 200 ∧ out.resp.body = [] ∧ len out.clients + 1 = len clients ∧
      ∃ pre c post, records clients = pre ++ c :: post ∧ c.ID = i ∧
        (∀ x ∈ pre, x.ID ≠ i) ∧ out.clients = some (pre ++ post)) ∧
    ((∀ x ∈ records clients, x.ID ≠ i) →
      out.resp.status = 404 ∧ out.resp.body = [Chunk.text "Client not found\n"] ∧
      out.clients = clients)) := by
  intro out
  refine ⟨?_, ?_⟩
  · intro hex
    obtain ⟨pre, c, post, hl, hc, hpre⟩ := exists_first_split i (records clients) hex
    have hout : out = { resp := newRecorder.writeHeader StatusOK, clients := some (pre ++ post) } :=
      handleDeleteClient_present clients newRecorder
        { Method := MethodDelete, Path := path, Body := body } i pre post c rfl hpath hpos
        hl hc hpre
    rw [hout]
    refine ⟨rfl, rfl, ?_, pre, c, post, hl, hc, hpre, rfl⟩
    unfold len
    rw [hl]
    simp [records]
    omega
  · intro habs
    have hout : out =
        { resp := httpError newRecorder clientNotFoundMsg StatusNotFound, clients := clients } :=
      handleDeleteClient_absent clients newRecorder
        { Method := MethodDelete, Path := path, Body := body } i rfl hpath hpos habs
    rw [hout, httpError_newRecorder]
    exact ⟨rfl, rfl, rfl⟩

/-- Witness for C2 on the seed collection: `DELETE /clients/2`. -/
theorem C2_handleDeleteClient_removes_first_witness :
    pathID "/clients/2" = some 2 ∧ (0 : Int) < 2 ∧
    (let out := handleDeleteClient initialClients newRecorder
      { Method := MethodDelete, Path := "/clients/2", Body := none }
    ((∃ x ∈ records initialClients, x.ID = 2) →
      out.resp.status = 200 ∧ out.resp.body = [] ∧ len out.clients + 1 = len initialClients ∧
      ∃ pre c post, records initialClients = pre ++ c :: post ∧ c.ID = 2 ∧
        (∀ x ∈ pre, x.ID ≠ 2) ∧ out.clients = some (pre ++ post)) ∧
    ((∀ x ∈ records initialClients, x.ID ≠ 2) →
      out.resp.status = 404 ∧ out.resp.body = [Chunk.text "Client not found\n"] ∧
      out.clients = initialClients)) :=
  ⟨by decide, by decide,
    C2_handleDeleteClient_removes_first initialClients "/clients/2" 2 none (by decide) (by decide)⟩

/-! ## Create -/

/-- C3: a `POST` whose body decodes to a client `c` is answered 201 with `c`
echoed back, and the collection afterwards is the one before with `c` appended
at the end: one longer, every earlier position holding the record it held, the
new last position holding `c`. Nothing is asked of `c.ID`, so this covers an id
that is already present. -/
theorem C3_handleCreateClient_appends (clients : Clients) (path : String) (c : Client) :
    (handleCreateClient clients newRecorder
      { Method := MethodPost, Path := path, Body := some c }).resp.status = 201 ∧
    (handleCreateClient clients newRecorder
      { Method := MethodPost, Path := path, Body := some c }).resp.body =
        [Chunk.json (encodeClient c)] ∧
    (handleCreateClient clients newRecorder
      { Method := MethodPost, Path := path, Body := some c }).clients =
        some (records clients ++ [c]) ∧
    len (handleCreateClient clients newRecorder
      { Method := MethodPost, Path := path, Body := some c }).clients = len clients + 1 ∧
    (records (handleCreateClient clients newRecorder
      { Method := MethodPost, Path := path, Body := some c }).clients)[len clients]? = some c ∧
    ∀ k : Fin (len clients),
      (records (handleCreateClient clients newRecorder
        { Method := MethodPost, Path := path, Body := some c }).clients)[k.val]? =
      (records clients)[k.val]? := by
  have hout : handleCreateClient clients newRecorder
      { Method := MethodPost, Path := path, Body := some c } =
      { resp := { header := [], code := some 201, body := [Chunk.json (encodeClient c)] },
        clients := some (records clients ++ [c]) } := by
    simp [handleCreateClient, append, jsonEncode, newRecorder, ResponseWriter.writeHeader,
      ResponseWriter.write, StatusCreated]
  rw [hout]
  refine ⟨rfl, rfl, rfl, ?_, ?_, ?_⟩
  · simp [len, records]
  · simp [len, records]
  · intro k
    have hk : k.val < (records clients).length := k.isLt
    simp only [records, Option.getD_some] at hk ⊢
    exact List.getElem?_append_left hk

/-! ## Get -/

/-- C4: a `GET` whose path names a positive id `i`. When a record with id `i`
exists the answer is 200 with the first such record (the collection splits as
`pre ++ c :: post`, no record of `pre` having id `i`, and the body is `c`); when
none exists the answer is 404 `Client not found`; a 404 is given only when none
exists; the collection is unchanged either way. -/
theorem C4_handleGetSingleClient_first_match (clients : Clients) (path : String) (i : Int)
    (body : Option Client) (hpath : pathID path = some i) (hpos : 0 < i) :
    (let out := handleGetSingleClient clients newRecorder
      { Method := MethodGet, Path := path, Body := body }
    ((∃ x ∈ records clients, x.ID = i) →
      ∃ pre c post, records clients = pre ++ c :: post ∧ c.ID = i ∧ (∀ x ∈ pre, x.ID ≠ i) ∧
        out.resp.status = 200 ∧ out.resp.body = [Chunk.json (encodeClient c)]) ∧
    ((∀ x ∈ records clients, x.ID ≠ i) →
      out.resp.status = 404 ∧ out.resp.body = [Chunk.text "Client not found\n"]) ∧
    (out.resp.status = 404 → ∀ x ∈ records clients, x.ID ≠ i) ∧
    out.clients = clients) := by
  intro out
  have hfound : (∃ x ∈ records clients, x.ID = i) →
      ∃ pre c post, records clients = pre ++ c :: post ∧ c.ID = i ∧ (∀ x ∈ pre, x.ID ≠ i) ∧
        out.resp.status = 200 ∧ out.resp.body = [Chunk.json (encodeClient c)] := by
    intro hex
    obtain ⟨pre, c, post, hl, hc, hpre⟩ := exists_first_split i (records clients) hex
    have hout : out = _ := handleGetSingleClient_present clients newRecorder
      { Method := MethodGet, Path := path, Body := body } i pre post c rfl hpath hpos hl hc hpre
    refine ⟨pre, c, post, hl, hc, hpre, ?_⟩
    rw [hout, jsonEncode_newRecorder]
    exact ⟨rfl, rfl⟩
  have habsent : (∀ x ∈ records clients, x.ID ≠ i) →
      out.resp.status = 404 ∧ out.resp.body = [Chunk.text "Client not found\n"] ∧
      out.clients = clients := by
    intro habs
    have hout : out = _ := handleGetSingleClient_absent clients newRecorder
      { Method := MethodGet, Path := path, Body := body } i rfl hpath hpos habs
    rw [hout, httpError_newRecorder]
    exact ⟨rfl, rfl, rfl⟩
  refine ⟨hfound, fun habs => ⟨(habsent habs).1, (habsent habs).2.1⟩, ?_, ?_⟩
  · intro h404 x hx hxi
    obtain ⟨_, _, _, _, _, _, h200, _⟩ := hfound ⟨x, hx, hxi⟩
    rw [h200] at h404
    exact absurd h404 (by decide)
  · by_cases hex : ∃ x ∈ records clients, x.ID = i
    · obtain ⟨pre, c, post, hl, hc, hpre⟩ := exists_first_split i (records clients) hex
      have hout : out = _ := handleGetSingleClient_present clients newRecorder
        { Method := MethodGet, Path := path, Body := body } i pre post c rfl hpath hpos hl hc hpre
      rw [hout]
    · exact (habsent (fun x hx hxi => hex ⟨x, hx, hxi⟩)).2.2

/-- Witness for C4 on the seed collection: `GET /clients/3`. -/
theorem C4_handleGetSingleClient_first_match_witness :
    pathID "/clients/3" = some 3 ∧ (0 : Int) < 3 ∧
    (let out := handleGetSingleClient initialClients newRecorder
      { Method := MethodGet, Path := "/clients/3", Body := none }
    ((∃ x ∈ records initialClients, x.ID = 3) →
      ∃ pre c post, records initialClients = pre ++ c :: post ∧ c.ID = 3 ∧
        (∀ x ∈ pre, x.ID ≠ 3) ∧
        out.resp.status = 200 ∧ out.resp.body = [Chunk.json (encodeClient c)]) ∧
    ((∀ x ∈ records initialClients, x.ID ≠ 3) →
      out.resp.status = 404 ∧ out.resp.body = [Chunk.text "Client not found\n"]) ∧
    (out.resp.status = 404 → ∀ x ∈ records initialClients, x.ID ≠ 3) ∧
    out.clients = initialClients) :=
  ⟨by decide, by decide,
    C4_handleGetSingleClient_first_match initialClients "/clients/3" 3 none
      (by decide) (by decide)⟩

/-! ## List -/

/-- C5, as the claim states it, fails on the collection of process start: the
nil slice is encoded as the JSON value `null`, which is not the JSON array of
its (zero) records. -/
theorem C5_nil_collection_is_encoded_as_null :
    (handleGetClients none newRecorder
      { Method := "GET", Path := "/clients", Body := none }).resp.body =
        [Chunk.json Json.null] ∧
    (handleGetClients none newRecorder
      { Method := "GET", Path := "/clients", Body := none }).resp.body ≠
        [Chunk.json (Json.arr ((records none).map encodeClient))] := by
  refine ⟨rfl, ?_⟩
  intro h
  have h' : [Chunk.json Json.null] = [Chunk.json (Json.arr ((records none).map encodeClient))] := h
  simp at h'

/-- C5 (amended): `GET /clients` is always answered 200 and leaves the collection
unchanged. For a non-nil collection (any collection a `Create` or a `Delete` has
produced) the body is the JSON array of exactly its records, all of them and in
their current order; for the nil collection of process start the body is the
JSON value `null`. -/
theorem C5_handleGetClients_lists_all (clients : Clients) (path : String)
    (body : Option Client) :
    (handleGetClients clients newRecorder
      { Method := MethodGet, Path := path, Body := body }).resp.status = 200 ∧
    (handleGetClients clients newRecorder
      { Method := MethodGet, Path := path, Body := body }).clients = clients ∧
    (∀ xs : List Client, clients = some xs →
      (handleGetClients clients newRecorder
        { Method := MethodGet, Path := path, Body := body }).resp.body =
          [Chunk.json (Json.arr (xs.map encodeClient))]) ∧
    (clients = none →
      (handleGetClients clients newRecorder
        { Method := MethodGet, Path := path, Body := body }).resp.body =
          [Chunk.json Json.null]) := by
  have hout : handleGetClients clients newRecorder
      { Method := MethodGet, Path := path, Body := body } =
      { resp := jsonEncode (newRecorder.setHeader contentTypeHeader applicationJSON)
          (encodeClients clients),
        clients := clients } := by
    simp [handleGetClients]
  rw [hout, jsonEncode_newRecorder]
  refine ⟨rfl, rfl, ?_, ?_⟩
  · intro xs hxs; subst hxs; rfl
  · intro hnil; subst hnil; rfl

/-! ## Invalid identifiers -/

/-- C6: when the path suffix after `/clients/` does not parse as an integer, or
parses to zero or to a negative number, each of `handleGetSingleClient`,
`handleUpdateClient` and `handleDeleteClient`, called with its own method, answers
400 `Invalid client ID` and leaves the collection unchanged; the request body is
arbitrary, also for Update. The suffixes `0`, `-3`, `abc` and the empty one are
of that kind, and so is the decimal text of every `n ≤ 0` that fits a Go `int`. -/
theorem C6_invalid_id_is_rejected (clients : Clients) (r : Request)
    (hid : pathID r.Path = none ∨ ∃ n, pathID r.Path = some n ∧ n ≤ 0) :
    (r.Method = MethodGet →
      (handleGetSingleClient clients newRecorder r).resp.status = 400 ∧
      (handleGetSingleClient clients newRecorder r).resp.body =
        [Chunk.text "Invalid client ID\n"] ∧
      (handleGetSingleClient clients newRecorder r).clients = clients) ∧
    (r.Method = MethodPut →
      (handleUpdateClient clients newRecorder r).resp.status = 400 ∧
      (handleUpdateClient clients newRecorder r).resp.body =
        [Chunk.text "Invalid client ID\n"] ∧
      (handleUpdateClient clients newRecorder r).clients = clients) ∧
    (r.Method = MethodDelete →
      (handleDeleteClient clients newRecorder r).resp.status = 400 ∧
      (handleDeleteClient clients newRecorder r).resp.body =
        [Chunk.text "Invalid client ID\n"] ∧
      (handleDeleteClient clients newRecorder r).clients = clients) ∧
    pathID "/clients/0" = some 0 ∧ pathID "/clients/-3" = some (-3) ∧
    pathID "/clients/abc" = none ∧ pathID "/clients/" = none ∧
    (∀ n : Int, n ≤ 0 → -2 ^ 63 ≤ n → pathID (clientPath n) = some n) := by
  obtain ⟨hget, hput, hdel⟩ := handler_invalid_id clients newRecorder r hid
  refine ⟨?_, ?_, ?_, by decide, by decide, by decide, by decide, ?_⟩
  · intro hm
    rw [hget hm, httpError_newRecorder]
    exact ⟨rfl, rfl, rfl⟩
  · intro hm
    rw [hput hm, httpError_newRecorder]
    exact ⟨rfl, rfl, rfl⟩
  · intro hm
    rw [hdel hm, httpError_newRecorder]
    exact ⟨rfl, rfl, rfl⟩
  · intro n hn hmin
    rcases lt_or_eq_of_le hn with hlt | rfl
    · exact pathID_clientPath_neg n hlt hmin
    · exact pathID_clientPath 0 (le_refl 0) (by norm_num)

/-- Witness for C6: `PUT /clients/abc` with a well-formed body, on the seed collection. -/
theorem C6_invalid_id_is_rejected_witness :
    (pathID "/clients/abc" = none ∨ ∃ n, pathID "/clients/abc" = some n ∧ n ≤ 0) ∧
    (handleUpdateClient initialClients newRecorder
      { Method := "PUT", Path := "/clients/abc", Body := some { ID := 1, Name := "x" } }).resp.status
      = 400 ∧
    (handleUpdateClient initialClients newRecorder
      { Method := "PUT", Path := "/clients/abc", Body := some { ID := 1, Name := "x" } }).clients
      = initialClients :=
  ⟨Or.inl (by decide),
    ((C6_invalid_id_is_rejected initialClients
      { Method := "PUT", Path := "/clients/abc", Body := some { ID := 1, Name := "x" } }
      (Or.inl (by decide))).2.1 rfl).1,
    ((C6_invalid_id_is_rejected initialClients
      { Method := "PUT", Path := "/clients/abc", Body := some { ID := 1, Name := "x" } }
      (Or.inl (by decide))).2.1 rfl).2.2⟩

/-! ## Create, then get -/

/-- C7, as the claim states it, fails for a record whose id is not positive:
`Create` accepts `{0, "Client 0"}` (no record of the seed collection has id 0)
and stores it, and `GET /clients/0` is answered 400. -/
theorem C7_created_id_zero_is_not_retrievable :
    (∀ x ∈ records initialClients, x.ID ≠ 0) ∧
    (handleCreateClient initialClients newRecorder
      { Method := "POST", Path := "/clients",
        Body := some { ID := 0, Name := "Client 0" } }).resp.status = 201 ∧
    records (handleCreateClient initialClients newRecorder
      { Method := "POST", Path := "/clients",
        Body := some { ID := 0, Name := "Client 0" } }).clients =
      records initialClients ++ [{ ID := 0, Name := "Client 0" }] ∧
    clientPath 0 = "/clients/0" ∧
    (handleGetSingleClient
      (handleCreateClient initialClients newRecorder
        { Method := "POST", Path := "/clients",
          Body := some { ID := 0, Name := "Client 0" } }).clients
      newRecorder { Method := "GET", Path := "/clients/0", Body := none }).resp.status = 400 ∧
    (handleGetSingleClient
      (handleCreateClient initialClients newRecorder
        { Method := "POST", Path := "/clients",
          Body := some { ID := 0, Name := "Client 0" } }).clients
      newRecorder { Method := "GET", Path := "/clients/0", Body := none }).resp.body =
        [Chunk.text "Invalid client ID\n"] :=
  ⟨by decide, rfl, rfl, by decide, rfl, rfl⟩

/-- C7 (amended): a record `c` with a positive id that does not occur in the
collection, once appended by `Create`, is returned by a `GET` whose path names
`c.ID`: the answer is 200 with exactly `c`. -/
theorem C7_created_client_is_retrievable (clients : Clients) (postPath getPath : String)
    (c : Client) (body : Option Client)
    (hpath : pathID getPath = some c.ID) (hpos : 0 < c.ID)
    (hnew : ∀ x ∈ records clients, x.ID ≠ c.ID) :
    (let created := handleCreateClient clients newRecorder
      { Method := MethodPost, Path := postPath, Body := some c }
    let got := handleGetSingleClient created.clients newRecorder
      { Method := MethodGet, Path := getPath, Body := body }
    created.resp.status = 201 ∧ got.resp.status = 200 ∧
    got.resp.body = [Chunk.json (encodeClient c)]) := by
  intro created got
  have hcreated : created =
      { resp := { header := [], code := some 201, body := [Chunk.json (encodeClient c)] },
        clients := some (records clients ++ [c]) } := by
    simp [created, handleCreateClient, append, jsonEncode, newRecorder,
      ResponseWriter.writeHeader, ResponseWriter.write, StatusCreated]
  have hgot : got = _ := handleGetSingleClient_present created.clients newRecorder
    { Method := MethodGet, Path := getPath, Body := body } c.ID (records clients) [] c
    rfl hpath hpos (by rw [hcreated]; rfl) rfl hnew
  rw [hgot, jsonEncode_newRecorder, hcreated]
  exact ⟨rfl, rfl, rfl⟩

/-- Witness for C7 (amended): `{4, "Client 4"}` created on the seed collection. -/
theorem C7_created_client_is_retrievable_witness :
    pathID "/clients/4" = some 4 ∧ (0 : Int) < 4 ∧
    (∀ x ∈ records initialClients, x.ID ≠ 4) ∧
    (let created := handleCreateClient initialClients newRecorder
      { Method := MethodPost, Path := "/clients", Body := some { ID := 4, Name := "Client 4" } }
    let got := handleGetSingleClient created.clients newRecorder
      { Method := MethodGet, Path := "/clients/4", Body := none }
    created.resp.status = 201 ∧ got.resp.status = 200 ∧
    got.resp.body = [Chunk.json (encodeClient { ID := 4, Name := "Client 4" })]) :=
  ⟨by decide, by decide, by decide,
    C7_created_client_is_retrievable initialClients "/clients" "/clients/4"
      { ID := 4, Name := "Client 4" } none (by decide) (by decide) (by decide)⟩

/-! ## Update of an id that is absent -/

/-- C8, as the claim states it, fails for a body that does not decode: the body
is decoded before the lookup, so `PUT /clients/99` on the seed collection (which
has no record with id 99) with such a body is answered 400 `Bad request`. -/
theorem C8_undecodable_body_is_answered_400 :
    (∀ x ∈ records initialClients, x.ID ≠ 99) ∧
    (handleUpdateClient initialClients newRecorder
      { Method := "PUT", Path := "/clients/99", Body := none }).resp.status = 400 ∧
    (handleUpdateClient initialClients newRecorder
      { Method := "PUT", Path := "/clients/99", Body := none }).resp.body =
        [Chunk.text "Bad request\n"] :=
  ⟨by decide, rfl, rfl⟩

/-- C8 (amended): a `PUT` whose path names a positive id that does not occur in
the collection, with any body that decodes as a client, is answered 404
`Client not found` and leaves the collection unchanged. -/
theorem C8_handleUpdateClient_absent_id (clients : Clients) (path : String) (i : Int)
    (u : Client) (hpath : pathID path = some i) (hpos : 0 < i)
    (habs : ∀ x ∈ records clients, x.ID ≠ i) :
    (let out := handleUpdateClient clients newRecorder
      { Method := MethodPut, Path := path, Body := some u }
    out.resp.status = 404 ∧ out.resp.body = [Chunk.text "Client not found\n"] ∧
    out.clients = clients) := by
  intro out
  have hout : out = _ := handleUpdateClient_absent clients newRecorder
    { Method := MethodPut, Path := path, Body := some u } i u rfl hpath hpos rfl habs
  rw [hout, httpError_newRecorder]
  exact ⟨rfl, rfl, rfl⟩

/-- Witness for C8 (amended): the request of `TestHandleUpdateNonExistingClient`. -/
theorem C8_handleUpdateClient_absent_id_witness :
    pathID "/clients/99" = some 99 ∧ (0 : Int) < 99 ∧
    (∀ x ∈ records initialClients, x.ID ≠ 99) ∧
    (let out := handleUpdateClient initialClients newRecorder
      { Method := MethodPut, Path := "/clients/99",
        Body := some { ID := 99, Name := "Non-existing Client" } }
    out.resp.status = 404 ∧ out.resp.body = [Chunk.text "Client not found\n"] ∧
    out.clients = initialClients) :=
  ⟨by decide, by decide, by decide,
    C8_handleUpdateClient_absent_id initialClients "/clients/99" 99
      { ID := 99, Name := "Non-existing Client" } (by decide) (by decide) (by decide)⟩

/-! ## Delete, twice -/

/-- C9, as the claim states it, fails when two records share the id: on
`[{1, "a"}, {1, "b"}]` the first `DELETE /clients/1` is answered 200, after it
`findClientByID 1` still finds `{1, "b"}`, and the second `DELETE /clients/1` is
answered 200 again. -/
theorem C9_second_delete_of_duplicate_id_succeeds :
    (handleDeleteClient (some [{ ID := 1, Name := "a" }, { ID := 1, Name := "b" }]) newRecorder
      { Method := "DELETE", Path := "/clients/1", Body := none }).resp.status = 200 ∧
    findClientByID
      (handleDeleteClient (some [{ ID := 1, Name := "a" }, { ID := 1, Name := "b" }]) newRecorder
        { Method := "DELETE", Path := "/clients/1", Body := none }).clients 1 =
      ({ ID := 1, Name := "b" }, true) ∧
    (handleDeleteClient
      (handleDeleteClient (some [{ ID := 1, Name := "a" }, { ID := 1, Name := "b" }]) newRecorder
        { Method := "DELETE", Path := "/clients/1", Body := none }).clients
      newRecorder { Method := "DELETE", Path := "/clients/1", Body := none }).resp.status = 200 :=
  ⟨rfl, rfl, rfl⟩

/-- C9 (amended): for a request whose path names the id `i`, if
`handleDeleteClient` answers 200 and at most one record of the collection has id
`i`, then the same request made again is answered 404 `Client not found`, and
`findClientByID i` reports not found after the first delete. -/
theorem C9_second_delete_is_404 (clients : Clients) (r : Request) (i : Int)
    (hpath : pathID r.Path = some i)
    (h200 : (handleDeleteClient clients newRecorder r).resp.status = 200)
    (huniq : (records clients).countP (fun x => x.ID = i) ≤ 1) :
    (let out := handleDeleteClient clients newRecorder r
    (handleDeleteClient out.clients newRecorder r).resp.status = 404 ∧
    (handleDeleteClient out.clients newRecorder r).resp.body =
      [Chunk.text "Client not found\n"] ∧
    (findClientByID out.clients i).2 = false) := by
  intro out
  have hm : r.Method = MethodDelete := by
    by_contra hne
    rw [handleDeleteClient_wrong_method clients newRecorder r hne, httpError_newRecorder] at h200
    exact absurd (show (405 : Nat) = 200 from h200) (by decide)
  have hpos : 0 < i := by
    by_contra hle
    have hbad := (handler_invalid_id clients newRecorder r
      (Or.inr ⟨i, hpath, not_lt.mp hle⟩)).2.2 hm
    rw [hbad, httpError_newRecorder] at h200
    exact absurd (show (400 : Nat) = 200 from h200) (by decide)
  have hex : ∃ x ∈ records clients, x.ID = i := by
    by_contra hno
    have habs : ∀ x ∈ records clients, x.ID ≠ i := fun x hx hxi => hno ⟨x, hx, hxi⟩
    rw [handleDeleteClient_absent clients newRecorder r i hm hpath hpos habs,
      httpError_newRecorder] at h200
    exact absurd (show (404 : Nat) = 200 from h200) (by decide)
  obtain ⟨pre, c, post, hl, hc, hpre⟩ := exists_first_split i (records clients) hex
  have hout : out = { resp := newRecorder.writeHeader StatusOK, clients := some (pre ++ post) } :=
    handleDeleteClient_present clients newRecorder r i pre post c hm hpath hpos hl hc hpre
  have hpost : ∀ x ∈ post, x.ID ≠ i := by
    rw [hl, List.countP_append, List.countP_cons] at huniq
    have hc' : decide (c.ID = i) = true := by simp [hc]
    rw [if_pos hc'] at huniq
    have hzero : List.countP (fun x => decide (x.ID = i)) post = 0 := by omega
    intro x hx hxi
    have := (List.countP_eq_zero.mp hzero) x hx
    simp [hxi] at this
  have habs : ∀ x ∈ records out.clients, x.ID ≠ i := by
    rw [hout]
    intro x hx
    have hx' : x ∈ pre ++ post := by simpa [records] using hx
    rcases List.mem_append.mp hx' with h | h
    · exact hpre x h
    · exact hpost x h
  rw [handleDeleteClient_absent out.clients newRecorder r i hm hpath hpos habs,
    httpError_newRecorder, findClientByID_absent out.clients i habs]
  exact ⟨rfl, rfl, rfl⟩

/-- Witness for C9 (amended): `DELETE /clients/1` twice on the seed collection. -/
theorem C9_second_delete_is_404_witness :
    pathID "/clients/1" = some 1 ∧
    (handleDeleteClient initialClients newRecorder
      { Method := "DELETE", Path := "/clients/1", Body := none }).resp.status = 200 ∧
    (records initialClients).countP (fun x => x.ID = 1) ≤ 1 ∧
    (let out := handleDeleteClient initialClients newRecorder
      { Method := "DELETE", Path := "/clients/1", Body := none }
    (handleDeleteClient out.clients newRecorder
      { Method := "DELETE", Path := "/clients/1", Body := none }).resp.status = 404 ∧
    (handleDeleteClient out.clients newRecorder
      { Method := "DELETE", Path := "/clients/1", Body := none }).resp.body =
      [Chunk.text "Client not found\n"] ∧
    (findClientByID out.clients 1).2 = false) :=
  ⟨by decide, rfl, by decide,
    C9_second_delete_is_404 initialClients
      { Method := "DELETE", Path := "/clients/1", Body := none } 1 (by decide) rfl (by decide)⟩

/-! ## Bodies that do not decode -/

/-- C10: with a body that fails to decode as a client, `handleCreateClient` on a
`POST` answers 400 `Bad request`, and so does `handleUpdateClient` on a `PUT`
whose path names a positive id; the collection is unchanged in both cases. -/
theorem C10_undecodable_body_is_rejected (clients : Clients) (postPath putPath : String)
    (i : Int) (hpath : pathID putPath = some i) (hpos : 0 < i) :
    (handleCreateClient clients newRecorder
      { Method := MethodPost, Path := postPath, Body := none }).resp.status = 400 ∧
    (handleCreateClient clients newRecorder
      { Method := MethodPost, Path := postPath, Body := none }).resp.body =
        [Chunk.text "Bad request\n"] ∧
    (handleCreateClient clients newRecorder
      { Method := MethodPost, Path := postPath, Body := none }).clients = clients ∧
    (handleUpdateClient clients newRecorder
      { Method := MethodPut, Path := putPath, Body := none }).resp.status = 400 ∧
    (handleUpdateClient clients newRecorder
      { Method := MethodPut, Path := putPath, Body := none }).resp.body =
        [Chunk.text "Bad request\n"] ∧
    (handleUpdateClient clients newRecorder
      { Method := MethodPut, Path := putPath, Body := none }).clients = clients := by
  have hcreate : handleCreateClient clients newRecorder
      { Method := MethodPost, Path := postPath, Body := none } =
      { resp := httpError newRecorder "Bad request" StatusBadRequest, clients := clients } := by
    simp [handleCreateClient]
  have hupdate := handleUpdateClient_badBody clients newRecorder
    { Method := MethodPut, Path := putPath, Body := none } i rfl hpath hpos rfl
  rw [hcreate, hupdate, httpError_newRecorder]
  exact ⟨rfl, rfl, rfl, rfl, rfl, rfl⟩

/-- Witness for C10: the seed collection, `POST /clients` and `PUT /clients/1`. -/
theorem C10_undecodable_body_is_rejected_witness :
    pathID "/clients/1" = some 1 ∧ (0 : Int) < 1 ∧
    (handleCreateClient initialClients newRecorder
      { Method := MethodPost, Path := "/clients", Body := none }).resp.status = 400 ∧
    (handleCreateClient initialClients newRecorder
      { Method := MethodPost, Path := "/clients", Body := none }).resp.body =
        [Chunk.text "Bad request\n"] ∧
    (handleCreateClient initialClients newRecorder
      { Method := MethodPost, Path := "/clients", Body := none }).clients = initialClients ∧
    (handleUpdateClient initialClients newRecorder
      { Method := MethodPut, Path := "/clients/1", Body := none }).resp.status = 400 ∧
    (handleUpdateClient initialClients newRecorder
      { Method := MethodPut, Path := "/clients/1", Body := none }).resp.body =
        [Chunk.text "Bad request\n"] ∧
    (handleUpdateClient initialClients newRecorder
      { Method := MethodPut, Path := "/clients/1", Body := none }).clients = initialClients :=
  ⟨by decide, by decide,
    C10_undecodable_body_is_rejected initialClients "/clients" "/clients/1" 1
      (by decide) (by decide)⟩

/-! # Further lemmas -/

/-! ### Method check, and what each handler does to the collection -/

theorem handleGetClients_wrong_method (clients : Clients) (w : ResponseWriter) (r : Request)
    (hm : r.Method ≠ MethodGet) :
    handleGetClients clients w r =
      { resp := httpError w methodNotAllowedMsg StatusMethodNotAllowed, clients := clients } := by
  unfold handleGetClients
  rw [if_pos hm]

theorem handleGetSingleClient_wrong_method (clients : Clients) (w : ResponseWriter)
    (r : Request) (hm : r.Method ≠ MethodGet) :
    handleGetSingleClient clients w r =
      { resp := httpError w methodNotAllowedMsg StatusMethodNotAllowed, clients := clients } := by
  unfold handleGetSingleClient
  rw [if_pos hm]

theorem handleCreateClient_wrong_method (clients : Clients) (w : ResponseWriter) (r : Request)
    (hm : r.Method ≠ MethodPost) :
    handleCreateClient clients w r =
      { resp := httpError w methodNotAllowedMsg StatusMethodNotAllowed, clients := clients } := by
  unfold handleCreateClient
  rw [if_pos hm]

theorem handleUpdateClient_wrong_method (clients : Clients) (w : ResponseWriter) (r : Request)
    (hm : r.Method ≠ MethodPut) :
    handleUpdateClient clients w r =
      { resp := httpError w methodNotAllowedMsg StatusMethodNotAllowed, clients := clients } := by
  unfold handleUpdateClient
  rw [if_pos hm]

theorem handleGetClients_ok (clients : Clients) (w : ResponseWriter) (r : Request)
    (hm : r.Method = MethodGet) :
    handleGetClients clients w r =
      { resp := jsonEncode (w.setHeader contentTypeHeader applicationJSON) (encodeClients clients),
        clients := clients } := by
  simp [handleGetClients, hm]

theorem handleCreateClient_ok (clients : Clients) (w : ResponseWriter) (r : Request)
    (c : Client) (hm : r.Method = MethodPost) (hb : r.Body = some c) :
    handleCreateClient clients w r =
      { resp := jsonEncode (w.writeHeader StatusCreated) (encodeClient c),
        clients := some (records clients ++ [c]) } := by
  simp [handleCreateClient, hm, hb, append]

theorem handleCreateClient_badBody (clients : Clients) (w : ResponseWriter) (r : Request)
    (hm : r.Method = MethodPost) (hb : r.Body = none) :
    handleCreateClient clients w r =
      { resp := httpError w "Bad request" StatusBadRequest, clients := clients } := by
  simp [handleCreateClient, hm, hb]

/-- `handleUpdateClient` returns the package variable as it received it. -/
theorem handleUpdateClient_clients (clients : Clients) (w : ResponseWriter) (r : Request) :
    (handleUpdateClient clients w r).clients = clients := by
  unfold handleUpdateClient
  split
  · rfl
  · dsimp only
    split
    · rfl
    · split
      · rfl
      · split
        · rfl
        · cases h : (findClientByID clients _).2 <;> simp [h]

/-- The shape of a `Create` on a fresh writer: either 201 with the record
appended, or another status with the collection as it was. -/
theorem handleCreateClient_cases (clients : Clients) (r : Request) :
    (∃ c, r.Body = some c ∧
      (handleCreateClient clients newRecorder r).resp.status = StatusCreated ∧
      (handleCreateClient clients newRecorder r).clients = some (records clients ++ [c])) ∨
    ((handleCreateClient clients newRecorder r).resp.status ≠ StatusCreated ∧
      (handleCreateClient clients newRecorder r).clients = clients) := by
  by_cases hm : r.Method = MethodPost
  · cases hb : r.Body with
    | none =>
      right
      rw [handleCreateClient_badBody clients newRecorder r hm hb, httpError_newRecorder]
      exact ⟨show (400 : Nat) ≠ 201 by decide, rfl⟩
    | some c =>
      left
      refine ⟨c, rfl, ?_⟩
      rw [handleCreateClient_ok clients newRecorder r c hm hb]
      exact ⟨rfl, rfl⟩
  · right
    rw [handleCreateClient_wrong_method clients newRecorder r hm, httpError_newRecorder]
    exact ⟨show (405 : Nat) ≠ 201 by decide, rfl⟩

/-- A `Delete` answered 200 on a fresh writer removed the first record with the
id the path names. -/
theorem handleDeleteClient_status_ok (clients : Clients) (r : Request)
    (h200 : (handleDeleteClient clients newRecorder r).resp.status = 200) :
    ∃ i pre c post, r.Method = MethodDelete ∧ pathID r.Path = some i ∧ 0 < i ∧
      records clients = pre ++ c :: post ∧ c.ID = i ∧ (∀ x ∈ pre, x.ID ≠ i) ∧
      handleDeleteClient clients newRecorder r =
        { resp := newRecorder.writeHeader StatusOK, clients := some (pre ++ post) } := by
  have hm : r.Method = MethodDelete := by
    by_contra hne
    rw [handleDeleteClient_wrong_method clients newRecorder r hne, httpError_newRecorder] at h200
    exact absurd (show (405 : Nat) = 200 from h200) (by decide)
  cases hp : pathID r.Path with
  | none =>
    have hbad := (handler_invalid_id clients newRecorder r (Or.inl hp)).2.2 hm
    rw [hbad, httpError_newRecorder] at h200
    exact absurd (show (400 : Nat) = 200 from h200) (by decide)
  | some i =>
    have hpos : 0 < i := by
      by_contra hle
      have hbad := (handler_invalid_id clients newRecorder r
        (Or.inr ⟨i, hp, not_lt.mp hle⟩)).2.2 hm
      rw [hbad, httpError_newRecorder] at h200
      exact absurd (show (400 : Nat) = 200 from h200) (by decide)
    have hex : ∃ x ∈ records clients, x.ID = i := by
      by_contra hno
      have habs : ∀ x ∈ records clients, x.ID ≠ i := fun x hx hxi => hno ⟨x, hx, hxi⟩
      rw [handleDeleteClient_absent clients newRecorder r i hm hp hpos habs,
        httpError_newRecorder] at h200
      exact absurd (show (404 : Nat) = 200 from h200) (by decide)
    obtain ⟨pre, c, post, hl, hc, hpre⟩ := exists_first_split i (records clients) hex
    exact ⟨i, pre, c, post, hm, rfl, hpos, hl, hc, hpre,
      handleDeleteClient_present clients newRecorder r i pre post c hm hp hpos hl hc hpre⟩

/-- A `Delete` not answered 200 on a fresh writer left the collection as it was. -/
theorem handleDeleteClient_status_other (clients : Clients) (r : Request)
    (h : (handleDeleteClient clients newRecorder r).resp.status ≠ 200) :
    (handleDeleteClient clients newRecorder r).clients = clients := by
  by_cases hm : r.Method = MethodDelete
  · cases hp : pathID r.Path with
    | none => rw [(handler_invalid_id clients newRecorder r (Or.inl hp)).2.2 hm]
    | some i =>
      by_cases hpos : 0 < i
      · by_cases hex : ∃ x ∈ records clients, x.ID = i
        · obtain ⟨pre, c, post, hl, hc, hpre⟩ := exists_first_split i (records clients) hex
          rw [handleDeleteClient_present clients newRecorder r i pre post c hm hp hpos
            hl hc hpre] at h
          exact absurd rfl h
        · rw [handleDeleteClient_absent clients newRecorder r i hm hp hpos
            (fun x hx hxi => hex ⟨x, hx, hxi⟩)]
      · rw [(handler_invalid_id clients newRecorder r
          (Or.inr ⟨i, hp, not_lt.mp hpos⟩)).2.2 hm]
  · rw [handleDeleteClient_wrong_method clients newRecorder r hm]

/-- After the first record with id `i` is removed from a collection that holds
at most one such record, none is left. -/
theorem no_match_after_removal (i : Int) (pre post : List Client) (c : Client)
    (hc : c.ID = i) (hpre : ∀ x ∈ pre, x.ID ≠ i)
    (huniq : (pre ++ c :: post).countP (fun x => x.ID = i) ≤ 1) :
    ∀ x ∈ pre ++ post, x.ID ≠ i := by
  rw [List.countP_append, List.countP_cons] at huniq
  have hc' : decide (c.ID = i) = true := by simp [hc]
  rw [if_pos hc'] at huniq
  have hzero : List.countP (fun x => decide (x.ID = i)) post = 0 := by omega
  intro x hx
  rcases List.mem_append.mp hx with h | h
  · exact hpre x h
  · intro hxi
    have := (List.countP_eq_zero.mp hzero) x h
    simp [hxi] at this

/-! ### Sequences of Create and Update requests -/

theorem serveAll_spec (ops : List Op) :
    ∀ init : Clients,
      records (serveAll init ops) = records init ++ createdRecords init ops ∧
      (createdRecords init ops ≠ [] ∨ init ≠ none → serveAll init ops ≠ none) := by
  induction ops with
  | nil =>
    intro init
    refine ⟨by simp [serveAll, createdRecords], ?_⟩
    intro h
    rcases h with h | h
    · exact absurd rfl h
    · exact h
  | cons op ops ih =>
    intro init
    cases op with
    | update r =>
      have hsame : (serve init (Op.update r)).clients = init :=
        handleUpdateClient_clients init newRecorder r
      simp only [serveAll, createdRecords, hsame]
      exact ih init
    | create r =>
      rcases handleCreateClient_cases init r with ⟨c, hb, hst, hcl⟩ | ⟨hst, hcl⟩
      · have hst' : (serve init (Op.create r)).resp.status = StatusCreated := hst
        have hcl' : (serve init (Op.create r)).clients = some (records init ++ [c]) := hcl
        obtain ⟨h1, h2⟩ := ih (some (records init ++ [c]))
        simp only [serveAll, createdRecords, hst', hcl', if_true, hb, Option.toList]
        refine ⟨?_, fun _ => h2 (Or.inr (by simp))⟩
        rw [h1]
        simp [records]
      · have hst' : (serve init (Op.create r)).resp.status ≠ StatusCreated := hst
        have hcl' : (serve init (Op.create r)).clients = init := hcl
        simp only [serveAll, createdRecords, hcl', if_neg hst', List.nil_append]
        exact ih init

/-! ## Wrong method -/

/-- C11: each of the five handlers, given a request whose method is not its own
(`GET`, `GET`, `POST`, `PUT`, `DELETE`), answers 405 with the one message
`Method not allowed` and leaves the collection unchanged, for any path and any
body. -/
theorem C11_wrong_method_is_405 (clients : Clients) (r : Request) :
    (r.Method ≠ MethodGet →
      (handleGetClients clients newRecorder r).resp.status = 405 ∧
      (handleGetClients clients newRecorder r).resp.body =
        [Chunk.text "Method not allowed\n"] ∧
      (handleGetClients clients newRecorder r).clients = clients) ∧
    (r.Method ≠ MethodGet →
      (handleGetSingleClient clients newRecorder r).resp.status = 405 ∧
      (handleGetSingleClient clients newRecorder r).resp.body =
        [Chunk.text "Method not allowed\n"] ∧
      (handleGetSingleClient clients newRecorder r).clients = clients) ∧
    (r.Method ≠ MethodPost →
      (handleCreateClient clients newRecorder r).resp.status = 405 ∧
      (handleCreateClient clients newRecorder r).resp.body =
        [Chunk.text "Method not allowed\n"] ∧
      (handleCreateClient clients newRecorder r).clients = clients) ∧
    (r.Method ≠ MethodPut →
      (handleUpdateClient clients newRecorder r).resp.status = 405 ∧
      (handleUpdateClient clients newRecorder r).resp.body =
        [Chunk.text "Method not allowed\n"] ∧
      (handleUpdateClient clients newRecorder r).clients = clients) ∧
    (r.Method ≠ MethodDelete →
      (handleDeleteClient clients newRecorder r).resp.status = 405 ∧
      (handleDeleteClient clients newRecorder r).resp.body =
        [Chunk.text "Method not allowed\n"] ∧
      (handleDeleteClient clients newRecorder r).clients = clients) := by
  refine ⟨?_, ?_, ?_, ?_, ?_⟩ <;> intro hm
  · rw [handleGetClients_wrong_method clients newRecorder r hm, httpError_newRecorder]
    exact ⟨rfl, rfl, rfl⟩
  · rw [handleGetSingleClient_wrong_method clients newRecorder r hm, httpError_newRecorder]
    exact ⟨rfl, rfl, rfl⟩
  · rw [handleCreateClient_wrong_method clients newRecorder r hm, httpError_newRecorder]
    exact ⟨rfl, rfl, rfl⟩
  · rw [handleUpdateClient_wrong_method clients newRecorder r hm, httpError_newRecorder]
    exact ⟨rfl, rfl, rfl⟩
  · rw [handleDeleteClient_wrong_method clients newRecorder r hm, httpError_newRecorder]
    exact ⟨rfl, rfl, rfl⟩

/-! ## What Update leaves alone -/

/-- C12: whatever the request and its outcome, after `handleUpdateClient` the
collection has the length it had, every position holds a record with the id it
held, and every record whose id is not the one the path names is the record
that was there. -/
theorem C12_handleUpdateClient_frame (clients : Clients) (r : Request) :
    len (handleUpdateClient clients newRecorder r).clients = len clients ∧
    (∀ k : Nat,
      ((records (handleUpdateClient clients newRecorder r).clients)[k]?).map Client.ID =
        ((records clients)[k]?).map Client.ID) ∧
    (∀ (k : Nat) (c : Client), (records clients)[k]? = some c →
      pathID r.Path ≠ some c.ID →
      (records (handleUpdateClient clients newRecorder r).clients)[k]? = some c) := by
  rw [handleUpdateClient_clients]
  exact ⟨rfl, fun _ => rfl, fun _ _ h _ => h⟩

/-! ## Order of the list -/

/-- C13: serve any sequence of Create and Update requests, starting from an empty
collection, then `GET /clients`. The answer is 200 and its body is the encoding
of the final collection, whose records carry, position by position, the ids of
the Creates that were answered 201, in the order those were made: one record
per successful Create, whatever Updates came in between. As soon as one Create
succeeded the body is the JSON array of those records. -/
theorem C13_list_keeps_creation_order (init : Clients) (ops : List Op) (path : String)
    (body : Option Client) (hinit : records init = []) :
    (handleGetClients (serveAll init ops) newRecorder
      { Method := MethodGet, Path := path, Body := body }).resp.status = 200 ∧
    (handleGetClients (serveAll init ops) newRecorder
      { Method := MethodGet, Path := path, Body := body }).resp.body =
        [Chunk.json (encodeClients (serveAll init ops))] ∧
    (records (serveAll init ops)).map Client.ID = (createdRecords init ops).map Client.ID ∧
    (records (serveAll init ops)).length = (createdRecords init ops).length ∧
    (createdRecords init ops ≠ [] →
      encodeClients (serveAll init ops) =
        Json.arr ((records (serveAll init ops)).map encodeClient)) := by
  obtain ⟨hrec, hsome⟩ := serveAll_spec ops init
  rw [hinit, List.nil_append] at hrec
  rw [handleGetClients_ok _ newRecorder _ rfl, jsonEncode_newRecorder]
  refine ⟨rfl, rfl, by rw [hrec], by rw [hrec], ?_⟩
  intro hne
  have hnn := hsome (Or.inl hne)
  cases hfin : serveAll init ops with
  | none => exact absurd hfin hnn
  | some xs => rfl

/-- Witness for C13: from the collection of process start, create `{1, "a"}`,
rename it, create `{2, "b"}`. -/
theorem C13_list_keeps_creation_order_witness :
    records none = [] ∧
    createdRecords none
      [Op.create { Method := "POST", Path := "/clients", Body := some { ID := 1, Name := "a" } },
       Op.update { Method := "PUT", Path := "/clients/1", Body := some { ID := 1, Name := "z" } },
       Op.create { Method := "POST", Path := "/clients", Body := some { ID := 2, Name := "b" } }] =
      [{ ID := 1, Name := "a" }, { ID := 2, Name := "b" }] ∧
    (records (serveAll none
      [Op.create { Method := "POST", Path := "/clients", Body := some { ID := 1, Name := "a" } },
       Op.update { Method := "PUT", Path := "/clients/1", Body := some { ID := 1, Name := "z" } },
       Op.create { Method := "POST", Path := "/clients",
                   Body := some { ID := 2, Name := "b" } }])).map Client.ID =
      (createdRecords none
      [Op.create { Method := "POST", Path := "/clients", Body := some { ID := 1, Name := "a" } },
       Op.update { Method := "PUT", Path := "/clients/1", Body := some { ID := 1, Name := "z" } },
       Op.create { Method := "POST", Path := "/clients",
                   Body := some { ID := 2, Name := "b" } }]).map Client.ID :=
  ⟨rfl, by decide,
    (C13_list_keeps_creation_order none
      [Op.create { Method := "POST", Path := "/clients", Body := some { ID := 1, Name := "a" } },
       Op.update { Method := "PUT", Path := "/clients/1", Body := some { ID := 1, Name := "z" } },
       Op.create { Method := "POST", Path := "/clients", Body := some { ID := 2, Name := "b" } }]
      "/clients" none rfl).2.2.1⟩

/-! ## Repeating a request -/

/-- C14, as the claim states it, fails for Delete when two records share the id:
on `[{1, "a"}, {1, "b"}]` one `DELETE /clients/1` leaves `[{1, "b"}]`, the same
request made twice leaves the empty collection. -/
theorem C14_delete_twice_differs_from_once :
    (handleDeleteClient (some [{ ID := 1, Name := "a" }, { ID := 1, Name := "b" }]) newRecorder
      { Method := "DELETE", Path := "/clients/1", Body := none }).clients =
      some [{ ID := 1, Name := "b" }] ∧
    (handleDeleteClient
      (handleDeleteClient (some [{ ID := 1, Name := "a" }, { ID := 1, Name := "b" }]) newRecorder
        { Method := "DELETE", Path := "/clients/1", Body := none }).clients
      newRecorder { Method := "DELETE", Path := "/clients/1", Body := none }).clients = some [] ∧
    (handleDeleteClient
      (handleDeleteClient (some [{ ID := 1, Name := "a" }, { ID := 1, Name := "b" }]) newRecorder
        { Method := "DELETE", Path := "/clients/1", Body := none }).clients
      newRecorder { Method := "DELETE", Path := "/clients/1", Body := none }).clients ≠
    (handleDeleteClient (some [{ ID := 1, Name := "a" }, { ID := 1, Name := "b" }]) newRecorder
      { Method := "DELETE", Path := "/clients/1", Body := none }).clients := by
  refine ⟨by decide, by decide, by decide⟩

/-- C14 (amended): the same Update request made twice leaves the collection as
one Update leaves it, for every collection and every request, with no condition
on the ids; the same Delete request made twice leaves the collection as one
Delete leaves it whenever at most one record has the id the path names. -/
theorem C14_update_and_single_match_delete_idempotent (clients : Clients) (r : Request) :
    (handleUpdateClient (handleUpdateClient clients newRecorder r).clients newRecorder r).clients =
      (handleUpdateClient clients newRecorder r).clients ∧
    ((∀ i, pathID r.Path = some i → (records clients).countP (fun x => x.ID = i) ≤ 1) →
      (handleDeleteClient (handleDeleteClient clients newRecorder r).clients
        newRecorder r).clients =
      (handleDeleteClient clients newRecorder r).clients) := by
  refine ⟨by rw [handleUpdateClient_clients, handleUpdateClient_clients], ?_⟩
  intro huniq
  by_cases h200 : (handleDeleteClient clients newRecorder r).resp.status = 200
  · obtain ⟨i, pre, c, post, hm, hp, hpos, hl, hc, hpre, hout⟩ :=
      handleDeleteClient_status_ok clients r h200
    have hu := huniq i hp
    rw [hl] at hu
    have habs : ∀ x ∈ records (some (pre ++ post) : Clients), x.ID ≠ i := by
      intro x hx
      exact no_match_after_removal i pre post c hc hpre hu x (by simpa [records] using hx)
    rw [hout]
    show (handleDeleteClient (some (pre ++ post)) newRecorder r).clients = some (pre ++ post)
    rw [handleDeleteClient_absent (some (pre ++ post)) newRecorder r i hm hp hpos habs]
  · have hsame := handleDeleteClient_status_other clients r h200
    rw [hsame]
    exact hsame

/-- Witness for C14 (amended): `DELETE /clients/1` twice on the seed collection,
where one record has id 1, and `PUT /clients/1` twice on `[{1, "a"}, {1, "b"}]`,
where two records have it. -/
theorem C14_update_and_single_match_delete_idempotent_witness :
    (∀ i, pathID "/clients/1" = some i →
      (records initialClients).countP (fun x => x.ID = i) ≤ 1) ∧
    (handleDeleteClient
      (handleDeleteClient initialClients newRecorder
        { Method := "DELETE", Path := "/clients/1", Body := none }).clients
      newRecorder { Method := "DELETE", Path := "/clients/1", Body := none }).clients =
    (handleDeleteClient initialClients newRecorder
      { Method := "DELETE", Path := "/clients/1", Body := none }).clients ∧
    (handleUpdateClient
      (handleUpdateClient (some [{ ID := 1, Name := "a" }, { ID := 1, Name := "b" }]) newRecorder
        { Method := "PUT", Path := "/clients/1", Body := some { ID := 1, Name := "z" } }).clients
      newRecorder
      { Method := "PUT", Path := "/clients/1", Body := some { ID := 1, Name := "z" } }).clients =
    (handleUpdateClient (some [{ ID := 1, Name := "a" }, { ID := 1, Name := "b" }]) newRecorder
      { Method := "PUT", Path := "/clients/1", Body := some { ID := 1, Name := "z" } }).clients :=
  ⟨fun i hi => by
      have h1 : pathID "/clients/1" = some 1 := by decide
      rw [h1] at hi
      cases hi
      decide,
    (C14_update_and_single_match_delete_idempotent initialClients
      { Method := "DELETE", Path := "/clients/1", Body := none }).2
      (fun i hi => by
        have h1 : pathID "/clients/1" = some 1 := by decide
        rw [h1] at hi
        cases hi
        decide),
    (C14_update_and_single_match_delete_idempotent
      (some [{ ID := 1, Name := "a" }, { ID := 1, Name := "b" }])
      { Method := "PUT", Path := "/clients/1", Body := some { ID := 1, Name := "z" } }).1⟩

/-! ## Content-Type of the success responses -/

/-- C15 (code defect): the 201 response of `handleCreateClient` carries a body but
no `Content-Type` entry, for every collection and every decoded record: the
handler writes the status and the body without setting the header. The success
responses of the three sibling handlers do carry `application/json` (shown for
`GET /clients` in general, and for `GET /clients/1` and `PUT /clients/1` on the
seed collection). -/
theorem C15_create_sets_no_content_type (clients : Clients) (path : String) (c : Client) :
    (handleCreateClient clients newRecorder
      { Method := MethodPost, Path := path, Body := some c }).resp.status = 201 ∧
    (handleCreateClient clients newRecorder
      { Method := MethodPost, Path := path, Body := some c }).resp.body =
        [Chunk.json (encodeClient c)] ∧
    (handleCreateClient clients newRecorder
      { Method := MethodPost, Path := path, Body := some c }).resp.header = [] ∧
    (handleGetClients clients newRecorder
      { Method := MethodGet, Path := path, Body := none }).resp.header =
        [("Content-Type", "application/json")] ∧
    (handleGetSingleClient initialClients newRecorder
      { Method := "GET", Path := "/clients/1", Body := none }).resp.header =
        [("Content-Type", "application/json")] ∧
    (handleUpdateClient initialClients newRecorder
      { Method := "PUT", Path := "/clients/1",
        Body := some { ID := 1, Name := "Updated Client 1" } }).resp.header =
        [("Content-Type", "application/json")] := by
  rw [handleCreateClient_ok clients newRecorder _ c rfl rfl,
    handleGetClients_ok clients newRecorder _ rfl, jsonEncode_newRecorder]
  exact ⟨rfl, rfl, rfl, rfl, rfl, rfl⟩

/-! ## The empty collection -/

/-- C16, as the claim states it, fails on the collection of process start: for the
nil slice the body of `GET /clients` is the JSON value `null`, not the empty
array. -/
theorem C16_list_at_process_start_is_null :
    (handleGetClients none newRecorder
      { Method := "GET", Path := "/clients", Body := none }).resp.status = 200 ∧
    (handleGetClients none newRecorder
      { Method := "GET", Path := "/clients", Body := none }).resp.body =
        [Chunk.json Json.null] ∧
    (handleGetClients none newRecorder
      { Method := "GET", Path := "/clients", Body := none }).resp.body ≠
        [Chunk.json (Json.arr [])] := by
  refine ⟨rfl, rfl, ?_⟩
  intro h
  have h' : [Chunk.json Json.null] = [Chunk.json (Json.arr [])] := h
  simp at h'

/-- C16 (amended): when a `Delete` answered 200 and left no record, the collection
is an empty non-nil slice and `GET /clients` answers 200 with the empty JSON
array; on the nil slice of process start it answers 200 with `null`. -/
theorem C16_list_of_emptied_collection (clients : Clients) (r : Request) (path : String)
    (body : Option Client)
    (h200 : (handleDeleteClient clients newRecorder r).resp.status = 200)
    (hempty : len (handleDeleteClient clients newRecorder r).clients = 0) :
    (handleDeleteClient clients newRecorder r).clients = some [] ∧
    (handleGetClients (handleDeleteClient clients newRecorder r).clients newRecorder
      { Method := MethodGet, Path := path, Body := body }).resp.status = 200 ∧
    (handleGetClients (handleDeleteClient clients newRecorder r).clients newRecorder
      { Method := MethodGet, Path := path, Body := body }).resp.body =
        [Chunk.json (Json.arr [])] ∧
    (handleGetClients none newRecorder
      { Method := MethodGet, Path := path, Body := body }).resp.status = 200 ∧
    (handleGetClients none newRecorder
      { Method := MethodGet, Path := path, Body := body }).resp.body =
        [Chunk.json Json.null] := by
  obtain ⟨i, pre, c, post, _, _, _, _, _, _, hout⟩ := handleDeleteClient_status_ok clients r h200
  rw [hout] at hempty ⊢
  have hnil : pre ++ post = [] := by
    have : (pre ++ post).length = 0 := by simpa [len, records] using hempty
    exact List.eq_nil_of_length_eq_zero this
  rw [hnil]
  rw [handleGetClients_ok _ newRecorder _ rfl, handleGetClients_ok _ newRecorder _ rfl,
    jsonEncode_newRecorder, jsonEncode_newRecorder]
  exact ⟨rfl, rfl, rfl, rfl, rfl⟩

/-- Witness for C16 (amended): the one-record collection `[{1, "Client 1"}]`
emptied by `DELETE /clients/1`. -/
theorem C16_list_of_emptied_collection_witness :
    (handleDeleteClient (some [{ ID := 1, Name := "Client 1" }]) newRecorder
      { Method := "DELETE", Path := "/clients/1", Body := none }).resp.status = 200 ∧
    len (handleDeleteClient (some [{ ID := 1, Name := "Client 1" }]) newRecorder
      { Method := "DELETE", Path := "/clients/1", Body := none }).clients = 0 ∧
    (handleGetClients
      (handleDeleteClient (some [{ ID := 1, Name := "Client 1" }]) newRecorder
        { Method := "DELETE", Path := "/clients/1", Body := none }).clients newRecorder
      { Method := MethodGet, Path := "/clients", Body := none }).resp.body =
        [Chunk.json (Json.arr [])] :=
  ⟨rfl, rfl,
    (C16_list_of_emptied_collection (some [{ ID := 1, Name := "Client 1" }])
      { Method := "DELETE", Path := "/clients/1", Body := none } "/clients" none rfl rfl).2.2.1⟩

/-! ## Accepted identifiers -/

/-- C17: for every `n` with `1 ≤ n ≤ 2^63 - 1` the path `/clients/` followed by
the decimal text of `n` parses to the id `n`, and each of
`handleGetSingleClient`, `handleUpdateClient` and `handleDeleteClient` goes on to
the lookup for exactly `n`: the outcome is the one given by `findClientByID n`
(for Update once the body has decoded) or `findClientIndexByID n`, and no
answer is `Invalid client ID`. -/
theorem C17_decimal_path_is_accepted (clients : Clients) (n : Int) (body : Option Client)
    (u : Client) (h1 : 1 ≤ n) (h2 : n ≤ 2 ^ 63 - 1) :
    pathID (clientPath n) = some n ∧
    handleGetSingleClient clients newRecorder
      { Method := MethodGet, Path := clientPath n, Body := body } =
      (if (findClientByID clients n).2 = true then
        { resp := jsonEncode (newRecorder.setHeader contentTypeHeader applicationJSON)
            (encodeClient (findClientByID clients n).1),
          clients := clients }
      else { resp := httpError newRecorder clientNotFoundMsg StatusNotFound,
             clients := clients }) ∧
    handleUpdateClient clients newRecorder
      { Method := MethodPut, Path := clientPath n, Body := some u } =
      (if (findClientByID clients n).2 = true then
        { resp := jsonEncode (newRecorder.setHeader contentTypeHeader applicationJSON)
            (encodeClient { (findClientByID clients n).1 with Name := u.Name }),
          clients := clients }
      else { resp := httpError newRecorder clientNotFoundMsg StatusNotFound,
             clients := clients }) ∧
    handleUpdateClient clients newRecorder
      { Method := MethodPut, Path := clientPath n, Body := none } =
      { resp := httpError newRecorder "Bad request" StatusBadRequest, clients := clients } ∧
    handleDeleteClient clients newRecorder
      { Method := MethodDelete, Path := clientPath n, Body := body } =
      (if (findClientIndexByID clients n).2 = true then
        { resp := newRecorder.writeHeader StatusOK,
          clients := append (sliceTo clients (findClientIndexByID clients n).1)
            (records (sliceFrom clients ((findClientIndexByID clients n).1 + 1))) }
      else { resp := httpError newRecorder clientNotFoundMsg StatusNotFound,
             clients := clients }) ∧
    (handleGetSingleClient clients newRecorder
      { Method := MethodGet, Path := clientPath n, Body := body }).resp.body ≠
        [Chunk.text "Invalid client ID\n"] ∧
    (handleUpdateClient clients newRecorder
      { Method := MethodPut, Path := clientPath n, Body := body }).resp.body ≠
        [Chunk.text "Invalid client ID\n"] ∧
    (handleDeleteClient clients newRecorder
      { Method := MethodDelete, Path := clientPath n, Body := body }).resp.body ≠
        [Chunk.text "Invalid client ID\n"] := by
  have hp : pathID (clientPath n) = some n := pathID_clientPath n (by omega) (by omega)
  have hpos : 0 < n := by omega
  have hget := handleGetSingleClient_eq clients newRecorder
    { Method := MethodGet, Path := clientPath n, Body := body } n rfl hp hpos
  have hupd := handleUpdateClient_eq clients newRecorder
    { Method := MethodPut, Path := clientPath n, Body := some u } n u rfl hp hpos rfl
  have hbad := handleUpdateClient_badBody clients newRecorder
    { Method := MethodPut, Path := clientPath n, Body := none } n rfl hp hpos rfl
  have hdel := handleDeleteClient_eq clients newRecorder
    { Method := MethodDelete, Path := clientPath n, Body := body } n rfl hp hpos
  refine ⟨hp, hget, hupd, hbad, hdel, ?_, ?_, ?_⟩
  · rw [hget]
    split
    · rw [jsonEncode_newRecorder]; simp
    · rw [httpError_newRecorder]; simp [clientNotFoundMsg]
  · cases body with
    | none => rw [hbad, httpError_newRecorder]; simp
    | some v =>
      rw [handleUpdateClient_eq clients newRecorder
        { Method := MethodPut, Path := clientPath n, Body := some v } n v rfl hp hpos rfl]
      split
      · rw [jsonEncode_newRecorder]; simp
      · rw [httpError_newRecorder]; simp [clientNotFoundMsg]
  · rw [hdel]
    split
    · simp [ResponseWriter.writeHeader, newRecorder]
    · rw [httpError_newRecorder]; simp [clientNotFoundMsg]

/-- Witness for C17: the largest id, `2^63 - 1`, on the seed collection. -/
theorem C17_decimal_path_is_accepted_witness :
    (1 : Int) ≤ 9223372036854775807 ∧ (9223372036854775807 : Int) ≤ 2 ^ 63 - 1 ∧
    clientPath 9223372036854775807 = "/clients/9223372036854775807" ∧
    pathID (clientPath 9223372036854775807) = some 9223372036854775807 :=
  ⟨by decide, by decide, by decide,
    (C17_decimal_path_is_accepted initialClients 9223372036854775807 none
      { ID := 0, Name := "" } (by decide) (by decide)).1⟩

/-! ## The two lookups -/

/-- C18: `findClientIndexByID` and `findClientByID` report found together. When
found, the index `k` satisfies `0 ≤ k < len(clients)` (so `clients[:k]` and
`clients[k+1:]` are in bounds), the record at position `k` is the one
`findClientByID` returns, it has the id asked for, and no earlier position holds
a record with that id. When not found, the index is `-1`, the record is the zero
`Client`, and no record has the id. -/
theorem C18_lookups_agree (clients : Clients) (id : Int) :
    (findClientIndexByID clients id).2 = (findClientByID clients id).2 ∧
    ((findClientByID clients id).2 = true →
      0 ≤ (findClientIndexByID clients id).1 ∧
      (findClientIndexByID clients id).1 < (len clients : Int) ∧
      (findClientIndexByID clients id).1 + 1 ≤ (len clients : Int) ∧
      (records clients)[(findClientIndexByID clients id).1.toNat]? =
        some (findClientByID clients id).1 ∧
      (findClientByID clients id).1.ID = id ∧
      ∀ (j : Nat) (x : Client), (j : Int) < (findClientIndexByID clients id).1 →
        (records clients)[j]? = some x → x.ID ≠ id) ∧
    ((findClientByID clients id).2 = false →
      (findClientIndexByID clients id).1 = -1 ∧
      (findClientByID clients id).1 = { ID := 0, Name := "" } ∧
      ∀ x ∈ records clients, x.ID ≠ id) := by
  by_cases hex : ∃ x ∈ records clients, x.ID = id
  · obtain ⟨pre, c, post, hl, hc, hpre⟩ := exists_first_split id (records clients) hex
    have hfind : findClientByID clients id = (c, true) :=
      findClientByID_present clients id pre post c hl hc hpre
    have hidx : findClientIndexByID clients id = (((pre.length : Nat) : Int), true) := by
      unfold findClientIndexByID
      rw [hl, findClientIndexByIDLoop_split id pre post c hc hpre 0]
      simp
    have hlen : len clients = pre.length + (post.length + 1) := by
      unfold len
      rw [hl]
      simp
    rw [hfind, hidx]
    refine ⟨rfl, ?_, ?_⟩
    · intro _
      refine ⟨by omega, by omega, by omega, ?_, hc, ?_⟩
      · rw [hl]
        show (pre ++ c :: post)[pre.length]? = some c
        rw [List.getElem?_append_right (le_refl _)]
        simp
      · intro j x hj hx
        have hj' : j < pre.length := by
          have hj2 : (j : Int) < ((pre.length : Nat) : Int) := hj
          omega
        rw [hl, List.getElem?_append_left hj'] at hx
        exact hpre x (List.getElem?_mem hx)
    · intro h
      exact absurd h (by simp)
  · have habs : ∀ x ∈ records clients, x.ID ≠ id := fun x hx hxi => hex ⟨x, hx, hxi⟩
    have hfind := findClientByID_absent clients id habs
    have hidx : findClientIndexByID clients id = (-1, false) :=
      findClientIndexByIDLoop_absent id (records clients) habs 0
    rw [hfind, hidx]
    refine ⟨rfl, ?_, ?_⟩
    · intro h
      exact absurd h (by simp)
    · intro _
      exact ⟨rfl, rfl, habs⟩

end GoCrud
